import Mathlib

/-!
Marktview: shallow embedding and verification.

A shallow embedding of the scrape-enrich-persist pipeline of the Marktview
repository (`marktview/llm.py`, `marktview/excel_writer.py`,
`marktview/models.py`, `marktview/parsers.py`, `marktview/scraper.py`),
together with theorems settling the specification claims about it.

Text is modelled as `List Char` (Lean `String.data`).  Python regular
expressions used by the code are simple alternations of literal tokens with
`\b` word boundaries and small digit patterns; they are modelled by explicit
leftmost-match scanning functions.  Word characters cover ASCII alphanumerics,
the underscore and the German letters (the only non-ASCII characters the
embedded patterns and the data of the repository use); whitespace is modelled by
`Char.isWhitespace`.
-/

namespace Marktview

/-- Python `str.lower()` / `re.IGNORECASE` on the character range used by the
repository: ASCII letters plus the German umlauts. -/
def pyLower (c : Char) : Char :=
  if 'A' ≤ c ∧ c ≤ 'Z' then Char.ofNat (c.toNat + 32)
  else if c = 'Ä' then 'ä'
  else if c = 'Ö' then 'ö'
  else if c = 'Ü' then 'ü'
  else c

/-- Lowercase a character list. -/
def lowerChars (s : List Char) : List Char := s.map pyLower

/-- Lowercase a string (Python `str.lower()`). -/
def pyLowerS (s : String) : String := String.mk (lowerChars s.data)

/-- A regex word character (`\w`) over the modelled character range:
ASCII alphanumerics, underscore and German letters. -/
def isWordChar (c : Char) : Bool :=
  c.isAlphanum || c = '_' ||
    c ∈ ['ä', 'ö', 'ü', 'Ä', 'Ö', 'Ü', 'ß']

/-- Replace `<` and `>` by spaces (`raw.replace("<", " ").replace(">", " ")`). -/
def replaceAngles (s : List Char) : List Char :=
  s.map fun c => if c = '<' ∨ c = '>' then ' ' else c

/-- Python `str.strip()`: drop whitespace from both ends. -/
def pyStrip (s : List Char) : List Char :=
  ((s.dropWhile Char.isWhitespace).reverse.dropWhile Char.isWhitespace).reverse

/-- Python `str.strip()` on strings. -/
def pyStripS (s : String) : String := String.mk (pyStrip s.data)

/-- Python `str.split()` (split on whitespace runs, dropping empty pieces). -/
def splitWs : List Char → List Char → List (List Char)
  | [], acc => if acc.isEmpty then [] else [acc.reverse]
  | c :: rest, acc =>
    if c.isWhitespace then
      if acc.isEmpty then splitWs rest []
      else acc.reverse :: splitWs rest []
    else splitWs rest (c :: acc)

/-- `" ".join(text.split())`: collapse whitespace runs to single spaces. -/
def collapseWs (s : List Char) : List Char :=
  List.intercalate [' '] (splitWs s [])

/-- The shared cleaning step of both normalizers:
`raw.replace("<", " ").replace(">", " ").strip()` followed by
`" ".join(cleaned.split())`. -/
def cleanText (s : List Char) : List Char :=
  collapseWs (pyStrip (replaceAngles s))

/-- Whether position `i` of `s` starts with a word character. -/
def wordAt (s : List Char) (i : Nat) : Bool :=
  match s.drop i with
  | [] => false
  | c :: _ => isWordChar c

/-- Regex `\b`: a word boundary at position `i` of `s` (between `s[i-1]`
and `s[i]`). -/
def boundaryAt (s : List Char) (i : Nat) : Bool :=
  (decide (i ≠ 0) && wordAt s (i - 1)) != wordAt s i

/-- Case-insensitive literal match of `tok` inside `s` at position `i`. -/
def litMatchAt (s tok : List Char) (i : Nat) : Bool :=
  lowerChars ((s.drop i).take tok.length) = lowerChars tok
    && decide (tok.length ≤ (s.drop i).length)

/-- Match of the regex `\btok\b` (case-insensitive) at position `i` of `s`. -/
def tokMatchAt (s tok : List Char) (i : Nat) : Bool :=
  boundaryAt s i && litMatchAt s tok i && boundaryAt s (i + tok.length)

/-- Whether `\btok\b` matches anywhere in `s` (case-insensitively). -/
def hasTokenMatch (s tok : List Char) : Bool :=
  (List.range (s.length + 1)).any fun i => tokMatchAt s tok i

/-- Leftmost-match search for the alternation `\b(t₁|t₂|…)\b`
(case-insensitive): scan positions left to right, at each position try the
alternatives in pattern order, return the matched text of the first hit. -/
def searchAltsFrom (s : List Char) (toks : List (List Char)) :
    Nat → Nat → Option (List Char)
  | _, 0 => none
  | i, fuel + 1 =>
    match toks.find? (fun t => tokMatchAt s t i) with
    | some t => some ((s.drop i).take t.length)
    | none => searchAltsFrom s toks (i + 1) fuel

/-- Leftmost match of the alternation `\b(t₁|t₂|…)\b` over all of `s`. -/
def searchAlts (s : List Char) (toks : List (List Char)) : Option (List Char) :=
  searchAltsFrom s toks 0 (s.length + 1)

/-- Numeric value of a digit list. -/
def digitsToNat (ds : List Char) : Nat :=
  ds.foldl (fun n c => n * 10 + (c.toNat - 48)) 0

/-- Leftmost match of `(\d{1,3})\s*%?`: the first position holding a digit
yields group 1, the greedy up-to-three-digit prefix of the digit run there
(the trailing `\s*%?` always succeeds and does not constrain the group). -/
def findFirstDigits : List Char → Option (List Char)
  | [] => none
  | c :: rest =>
    if c.isDigit then some ((c :: rest).takeWhile Char.isDigit |>.take 3)
    else findFirstDigits rest

/-- The four canonical gender tokens, in pattern order
(`\b(weiblich|männlich|divers|unbekannt)\b`). -/
def genderTokens : List String := ["weiblich", "männlich", "divers", "unbekannt"]

/-- `_normalize_gender_output` (llm.py): clean the raw model text, search for
a canonical gender token as a whole word (case-insensitive), fail when none
is present; separately search for a 1–3 digit number, defaulting to 50 and
clamping into `[0,100]`; return `"<token lowercased> <percent>%"`. -/
def normalizeGenderOutput (raw : String) : Except String String :=
  match searchAlts (cleanText raw.data) (genderTokens.map String.data) with
  | none => .error "Antwort enthält kein erkennbares Geschlecht."
  | some tokText =>
    .ok (String.mk (lowerChars tokText) ++ " "
      ++ toString (match findFirstDigits (cleanText raw.data) with
          | none => (50 : Nat)
          | some ds => min (max (digitsToNat ds) 0) 100) ++ "%")

/-- The audience synonym table of `_normalize_target_audience_output`, in the
declared dictionary (insertion) iteration order.  Within one entry the
synonyms form a set: only whether any of them matches is observable. -/
def audienceSynonyms : List (String × List String) :=
  [ ("weiblich", ["weiblich", "frau", "frauen", "damen"])
  , ("männlich", ["männlich", "mann", "männer", "herren"])
  , ("divers", ["divers", "nonbinär", "non-binary", "trans", "trans*", "transgender"])
  , ("bi", ["bi", "bisexuell", "beide", "alle"])
  , ("unbekannt", ["unbekannt", "unklar", "k.A."]) ]

/-- Whether some synonym of one table entry occurs in `s` as a whole word
(case-insensitively). -/
def entryMatches (s : List Char) (entry : String × List String) : Bool :=
  entry.2.any fun k => hasTokenMatch s k.data

/-- `_normalize_target_audience_output` (llm.py): clean the raw text, return
the first canonical label (in table order) one of whose synonyms occurs as a
whole word; fail when none matches. -/
def normalizeTargetAudienceOutput (raw : String) : Except String String :=
  match audienceSynonyms.find? (entryMatches (cleanText raw.data)) with
  | some entry => .ok entry.1
  | none => .error "Antwort enthält keine erkennbaren Zielgruppe."

/-- `Listing` (models.py): one scraped classified ad, with the dataclass
field defaults. -/
structure Listing where
  title : String
  url : String
  postal_code : String := ""
  created_at : Option String := none
  body : Option String := none
  gender : String := "nicht angegeben"
  target_audience : String := "unbekannt"
  financial_interest : String := "nicht angegeben"
  listing_id : String := "nicht angegeben"
  username : String := "nicht angegeben"
  deriving Repr, DecidableEq

/-- `Listing.__post_init__` (models.py): trim every textual field; the two
optional fields are trimmed only when truthy. -/
def postInit (l : Listing) : Listing :=
  { l with
    title := pyStripS l.title
    url := pyStripS l.url
    postal_code := pyStripS l.postal_code
    created_at :=
      match l.created_at with
      | some s => if s ≠ "" then some (pyStripS s) else some s
      | none => none
    body :=
      match l.body with
      | some s => if s ≠ "" then some (pyStripS s) else some s
      | none => none
    gender := pyStripS l.gender
    target_audience := pyStripS l.target_audience
    financial_interest := pyStripS l.financial_interest
    listing_id := pyStripS l.listing_id
    username := pyStripS l.username }

/-- One worksheet data row: ten cells, each possibly empty (`None`). -/
abbrev Row := List (Option String)

/-- The cell values appended for one listing by `write_listings_to_excel`. -/
def listingRow (l : Listing) : Row :=
  [some l.title, some l.url, some l.postal_code, l.created_at, l.body,
   some l.gender, some l.target_audience, some l.financial_interest,
   some l.listing_id, some l.username]

/-- The identifier a cell value contributes: only a truthy cell (`None` and
`""` are falsy) counts. -/
def cellId : Option String → Option String
  | some s => if s ≠ "" then some s else none
  | none => none

/-- The identifier a stored row contributes to the known-ID set:
rows shorter than nine cells are skipped, and only a truthy ninth cell
(`row[8]`) counts (`load_existing_listing_ids`, excel_writer.py). -/
def rowId (row : Row) : Option String :=
  if row.length < 9 then none else cellId (row.getD 8 none)

/-- Add an identifier to a set modelled as a duplicate-free list. -/
def addId (ids : List String) (s : String) : List String :=
  if ids.contains s then ids else s :: ids

/-- An Excel file: `none` when the file does not exist, otherwise the list of
data rows (the fixed header row is implicit). -/
abbrev ExcelFile := Option (List Row)

/-- One iteration of the row scan of `load_existing_listing_ids`. -/
def loadStep (ids : List String) (row : Row) : List String :=
  match rowId row with
  | some s => addId ids s
  | none => ids

/-- `load_existing_listing_ids` (excel_writer.py): collect the truthy
identifier cells of all stored rows; empty when the file does not exist. -/
def loadExistingListingIds (file : ExcelFile) : List String :=
  match file with
  | none => []
  | some rows => rows.foldl loadStep []

/-- The loop state of `write_listings_to_excel`: accumulated rows and the
in-memory `existing_ids` set. -/
structure WriteState where
  rows : List Row
  ids : List String
  deriving Repr, DecidableEq

/-- One iteration of the append loop of `write_listings_to_excel`: skip a
listing whose truthy identifier is already known, otherwise append its row
and record a truthy identifier. -/
def writeStep (st : WriteState) (l : Listing) : WriteState :=
  if l.listing_id ≠ "" ∧ st.ids.contains l.listing_id then st
  else
    { rows := st.rows ++ [listingRow l]
      ids := if l.listing_id ≠ "" then addId st.ids l.listing_id else st.ids }

/-- `write_listings_to_excel` (excel_writer.py): load the stored identifiers,
open the existing rows (or start a fresh sheet), run the append loop and
return the saved data rows. -/
def writeListingsToExcel (listings : List Listing) (file : ExcelFile) :
    List Row :=
  (listings.foldl writeStep
    { rows := file.getD [], ids := loadExistingListingIds file }).rows

/-- Number of stored rows whose identifier cell holds `id`. -/
def fileCountId (rows : List Row) (id : String) : Nat :=
  (rows.filter fun row => row.getD 8 none = some id).length

/-- The per-identifier invariant maintained by the append loop of
`write_listings_to_excel`: at most one stored row carries the identifier,
and once one does, the in-memory set knows it. -/
def IdInvariant (id : String) (st : WriteState) : Prop :=
  fileCountId st.rows id ≤ 1
    ∧ (1 ≤ fileCountId st.rows id → st.ids.contains id = true)


/-- Python `needle in hay` (substring containment). -/
def containsSub (hay needle : List Char) : Bool :=
  (List.range (hay.length + 1)).any fun i =>
    (hay.drop i).take needle.length = needle

/-- Match of `\b\d{5}\b` at position `i` of `s`. -/
def fiveDigitAt (s : List Char) (i : Nat) : Bool :=
  boundaryAt s i && ((s.drop i).take 5).all Char.isDigit
    && decide (5 ≤ (s.drop i).length) && boundaryAt s (i + 5)

/-- Leftmost match of `\b\d{5}\b` (`re.search(r"\b\d{5}\b", …)`,
parsers.py). -/
def searchFiveDigits (s : List Char) : Option (List Char) :=
  match (List.range (s.length + 1)).find? (fiveDigitAt s) with
  | some i => some ((s.drop i).take 5)
  | none => none

/-- The text content a detail page yields to `parse_listing_details`
(parsers.py); each `_safe_inner_text` result is `none` when the locator
failed, and the attribute table arrives as parallel label/description
lists. -/
structure ExtractedDetails where
  locationText : Option String := none
  dateText : Option String := none
  bodyText : Option String := none
  usernameText : Option String := none
  labels : List String := []
  descriptions : List String := []

/-- Label normalization of the attribute loop: remove soft hyphens
(U+00AD), strip, lowercase. -/
def normalizeLabel (lab : String) : List Char :=
  lowerChars (pyStrip (lab.data.filter fun c => c ≠ Char.ofNat 173))

/-- One iteration of the attribute loop of `parse_listing_details`: assign
the stripped value to the field whose label substring matches first
(gender, then financial interest, then listing identifier). -/
def applyAttr (l : Listing) (lab value : String) : Listing :=
  let nl := normalizeLabel lab
  let cleaned := pyStripS value
  if containsSub nl "geschlecht".data then { l with gender := cleaned }
  else if containsSub nl "interesse an geld".data then
    { l with financial_interest := cleaned }
  else if containsSub nl "anzeigenkennung".data then
    { l with listing_id := cleaned }
  else l

/-- The location step of `parse_listing_details`: when the location text is
truthy, set the postal code to the first isolated 5-digit run, or `""`. -/
def applyLocation (d : ExtractedDetails) (l : Listing) : Listing :=
  match d.locationText with
  | some t =>
    if t ≠ "" then
      { l with postal_code :=
          match searchFiveDigits t.data with
          | some m => String.mk m
          | none => "" }
    else l
  | none => l

/-- The creation-date step of `parse_listing_details`: assign the stripped
text, or `none` when it is falsy. -/
def applyDate (d : ExtractedDetails) (l : Listing) : Listing :=
  { l with created_at :=
      match d.dateText with
      | some t => if t ≠ "" then some (pyStripS t) else none
      | none => none }

/-- The body step of `parse_listing_details`. -/
def applyBody (d : ExtractedDetails) (l : Listing) : Listing :=
  { l with body :=
      match d.bodyText with
      | some t => if t ≠ "" then some (pyStripS t) else none
      | none => none }

/-- The username step of `parse_listing_details`: assign only when truthy. -/
def applyUsername (d : ExtractedDetails) (l : Listing) : Listing :=
  match d.usernameText with
  | some t => if t ≠ "" then { l with username := pyStripS t } else l
  | none => l

/-- `parse_listing_details` (parsers.py) as a pure update of the listing
from the extracted page text: postal code, creation date, body, username,
then the label/value attribute table. -/
def parseListingDetails (d : ExtractedDetails) (l : Listing) : Listing :=
  (d.labels.zip d.descriptions).foldl
    (fun acc p => applyAttr acc p.1 p.2)
    (applyUsername d (applyBody d (applyDate d (applyLocation d l))))

/-- The environment one enrichment run observes: detail extraction (which
may raise) and the two inference calls (which may raise, or return a
possibly-empty answer). -/
structure EnrichEnv where
  details : Listing → Except Unit ExtractedDetails
  genderLLM : Listing → Except Unit (Option String)
  audienceLLM : Listing → Except Unit (Option String)

/-- The inner `try` of the gender branch of `_populate_listing`
(scraper.py): assign a truthy LLM answer; an inference exception is caught
and ignored, and a falsy answer is not assigned. -/
def genderFromLLM (env : EnrichEnv) (l : Listing) : Listing :=
  match env.genderLLM l with
  | .ok (some g) => if g ≠ "" then { l with gender := g } else l
  | _ => l

/-- The gender branch of `_populate_listing` (scraper.py): when the gender
is still the sentinel, try LLM inference, then replace a remaining sentinel
with `"unbekannt 0%"`. -/
def inferGenderStep (env : EnrichEnv) (l : Listing) : Listing :=
  if pyLowerS l.gender = "nicht angegeben" then
    if pyLowerS (genderFromLLM env l).gender = "nicht angegeben" then
      { genderFromLLM env l with gender := "unbekannt 0%" }
    else genderFromLLM env l
  else l

/-- The audience branch of `_populate_listing`: always attempt inference;
failures are caught and falsy answers not assigned. -/
def inferAudienceStep (env : EnrichEnv) (l : Listing) : Listing :=
  match env.audienceLLM l with
  | .ok (some a) => if a ≠ "" then { l with target_audience := a } else l
  | _ => l

/-- The known-ID update at the end of `_populate_listing`: record a truthy
`listing_id`. -/
def addKnownStep (l : Listing) (known : List String) : List String :=
  if l.listing_id ≠ "" then addId known l.listing_id else known

/-- The state of `_populate_listing` directly after `parse_listing_details`
and before any inference call: the listing holds the extracted fields, the
known-ID set is untouched.  A failed extraction leaves the listing as it
was (the exception is caught by the outer handler). -/
def populateAfterExtraction (env : EnrichEnv) (l : Listing)
    (known : List String) : Listing × List String :=
  match env.details l with
  | .error _ => (l, known)
  | .ok d => (parseListingDetails d l, known)

/-- `_populate_listing` (scraper.py): extract details (an extraction
exception is caught, leaving listing and set unchanged), run the gender and
audience inference branches, and finally record a truthy listing
identifier in the shared known-ID set. -/
def populateListing (env : EnrichEnv) (l : Listing) (known : List String) :
    Listing × List String :=
  match env.details l with
  | .error _ => (l, known)
  | .ok d =>
    let l1 := parseListingDetails d l
    let l2 := inferAudienceStep env (inferGenderStep env l1)
    (l2, addKnownStep l2 known)

/-- A detail-page environment whose attribute table yields the listing
identifier `"999"` and whose inference calls succeed. -/
def idExtractEnv : EnrichEnv :=
  { details := fun _ =>
      .ok { labels := ["Anzeigenkennung"], descriptions := ["999"] }
    genderLLM := fun _ => .ok (some "weiblich 90%")
    audienceLLM := fun _ => .ok (some "weiblich") }

/-- A detail-page environment whose attribute table is empty: no listing
identifier is extracted. -/
def noIdExtractEnv : EnrichEnv :=
  { details := fun _ => .ok {}
    genderLLM := fun _ => .ok (some "weiblich 90%")
    audienceLLM := fun _ => .ok (some "weiblich") }

/-- What one index page yields to the walk: the parsed listing stubs, the
raw page content (for the diagnostic dump), and whether the next-page
control is visible within the 3-second check (absence, invisibility and a
locator error all appear as `false`). -/
structure PageContent where
  stubs : List Listing
  content : String
  nextVisible : Bool

/-- The environment of one `scrape_pages` run: the successive index pages
(indexed by the number of next-page clicks so far), the enrichment
environment, and whether a progress path was supplied. -/
structure WalkEnv where
  pages : Nat → PageContent
  enrich : EnrichEnv
  progressEnabled : Bool

/-- Why the page walk stopped. -/
inductive StopReason where
  | pageLimit
  | emptyPage
  | noNext
  deriving Repr, DecidableEq

/-- The mutable state of the walk loop. -/
structure WalkState where
  listings : List Listing
  known : List String
  processed : Nat
  added : Nat
  dumps : List (Nat × String)
  progress : ExcelFile

/-- The walk outcome: final state, number of index pages visited, and the
reason the loop ended. -/
structure WalkResult where
  state : WalkState
  pagesVisited : Nat
  stop : StopReason

/-- Sequential enrichment of the new stubs of one page, threading the shared
known-ID set (each `_populate_listing` awaited before the next starts). -/
def enrichAll (env : EnrichEnv) (ls : List Listing) (known : List String) :
    List Listing × List String :=
  ls.foldl
    (fun acc l =>
      let r := populateListing env l acc.2
      (acc.1 ++ [r.1], r.2))
    ([], known)

/-- The dedup filter of one page: keep the stubs whose URL contains no
known (non-empty) identifier as a substring. -/
def pageFiltered (env : WalkEnv) (current : Nat) (st : WalkState) :
    List Listing :=
  (env.pages current).stubs.filter fun l =>
    ! st.known.any fun id => id ≠ "" && containsSub l.url.data id.data

/-- The state update of one non-empty index page: count all parsed stubs,
and when some survived the dedup filter, enrich them sequentially, collect
them, and write them to the progress file when one is configured. -/
def walkPageStep (env : WalkEnv) (current : Nat) (st : WalkState) :
    WalkState :=
  if (pageFiltered env current st).isEmpty then
    { st with processed := st.processed + (env.pages current).stubs.length }
  else
    { st with
      processed := st.processed + (env.pages current).stubs.length
      known := (enrichAll env.enrich (pageFiltered env current st) st.known).2
      listings := st.listings
        ++ (enrichAll env.enrich (pageFiltered env current st) st.known).1
      added := st.added + (pageFiltered env current st).length
      progress :=
        if env.progressEnabled then
          some (writeListingsToExcel
            (enrichAll env.enrich (pageFiltered env current st) st.known).1
            st.progress)
        else st.progress }

/-- The `while current_page < max_pages` loop of `scrape_pages`
(scraper.py), with `fuel = max_pages - current`: parse the stubs of the page
(stop with a dump of the raw content when there are none), process the page
via `walkPageStep`, then advance — or stop when the next-page control is
not visible. -/
def walkLoop (env : WalkEnv) : Nat → Nat → WalkState → WalkResult
  | 0, current, st => ⟨st, current, .pageLimit⟩
  | fuel + 1, current, st =>
    if (env.pages current).stubs.isEmpty then
      ⟨{ st with dumps :=
            st.dumps ++ [(current + 1, (env.pages current).content)] },
        current + 1, .emptyPage⟩
    else
      if (env.pages current).nextVisible then
        walkLoop env fuel (current + 1) (walkPageStep env current st)
      else ⟨walkPageStep env current st, current + 1, .noNext⟩

/-- A two-page environment for concrete walk runs: a first page with one
stub and a visible next-page control, then an empty page. -/
def walkDemoPages : Nat → PageContent := fun i =>
  if i = 0 then
    { stubs := [{ title := "a", url := "https://u1" }],
      content := "p0", nextVisible := true }
  else { stubs := [], content := "p1", nextVisible := false }

/-- An enrichment environment whose detail fetches always fail (every
per-listing exception is caught by `_populate_listing`). -/
def walkDemoEnrich : EnrichEnv :=
  { details := fun _ => .error ()
    genderLLM := fun _ => .error ()
    audienceLLM := fun _ => .error () }

/-- `scrape_pages` (scraper.py), from the first index page. -/
def scrapePages (env : WalkEnv) (maxPages : Nat) (known₀ : List String)
    (progress₀ : ExcelFile) : WalkResult :=
  walkLoop env maxPages 0
    { listings := [], known := known₀, processed := 0, added := 0,
      dumps := [], progress := progress₀ }

/-- Match of `(\d{1,3})%` at position `i`: greedily take up to three digits,
backtracking until a literal `%` follows. -/
def confMatchAt (s : List Char) (i : Nat) : Option (List Char) :=
  [3, 2, 1].findSome? fun len =>
    let grp := (s.drop i).take len
    if grp.length = len && grp.all Char.isDigit
        && (s.drop (i + len)).take 1 = ['%'] then
      some grp
    else none

/-- Leftmost match of `(\d{1,3})%` (the confidence check of
`LLMClient.query`). -/
def confSearch (s : List Char) : Option Nat :=
  ((List.range (s.length + 1)).findSome? fun i => confMatchAt s i).map
    digitsToNat

/-- The JSON body of a successful response, reduced to the two text fields
`query` inspects. -/
structure HttpPayload where
  response : Option String := none
  output : Option String := none

/-- Second half of `data.get("response") or data.get("output")`. -/
def payloadSecondary (p : HttpPayload) : Option String :=
  match p.output with
  | some s => if s ≠ "" then some s else none
  | none => none

/-- `data.get("response") or data.get("output")` followed by the truthiness
check `if not output`: the text of a payload, `none` when both fields are
falsy. -/
def payloadText (p : HttpPayload) : Option String :=
  match p.response with
  | some s => if s ≠ "" then some s else payloadSecondary p
  | none => payloadSecondary p

/-- What one transport call (`_send_request`, i.e. `requests.post` plus
`raise_for_status`) produces: a network-level `RequestException`, an
`HTTPError` with a status code, or a successful response body. -/
inductive TransportOutcome where
  | netError
  | httpError (status : Nat)
  | success (payload : HttpPayload)

/-- How `query` fails: an `LLMInferenceError` with its message, or a raw
exception escaping the 404-restart resend (which is not wrapped). -/
inductive QueryError where
  | inference (msg : String)
  | uncaught
  deriving Repr, DecidableEq

/-- Outcome of a `query` call: the returned string or the raised error, the
number of loop attempts entered, and the number of transport calls made. -/
structure QueryResult where
  result : Except QueryError String
  attempts : Nat
  calls : Nat
  deriving Repr

/-- `max_attempts` of `LLMClient.query`. -/
def maxAttempts : Nat := 10

/-- The `LLMInferenceError` message for exhausted network errors. -/
def netHint : String := "LLM-Endpunkt konnte nicht erreicht werden."

/-- The `LLMInferenceError` message for an exhausted HTTP error status. -/
def httpHint (status : Nat) : String :=
  if status = 404 then "Der LLM-Endpunkt antwortet mit 404 Not Found."
  else "LLM-Anfrage fehlgeschlagen (HTTP " ++ toString status ++ ")."

/-- What one loop iteration decides: finish with a result or a raised
error, or fall through to the next attempt (`continue`). -/
inductive StepOut where
  | done (r : Except QueryError String)
  | retry

/-- The successful-response tail of one `query` attempt: extract the text
(raising when both fields are falsy), strip it, run the normalizer (a parse
failure retries, or yields the fallback on the final attempt), and enforce
the confidence floor (advisory on the final attempt). -/
def handleSuccess (normalizer : Option (String → Except String String))
    (enforceConfidence : Bool) (fallback : String) (attempt : Nat)
    (p : HttpPayload) : StepOut :=
  match payloadText p with
  | none => .done (.error (.inference "Antwort enthält keinen Text."))
  | some o =>
    let cleaned := pyStripS o
    let normalized :=
      match normalizer with
      | some f => f cleaned
      | none => .ok cleaned
    match normalized with
    | .error _ =>
      if attempt < maxAttempts then .retry else .done (.ok fallback)
    | .ok n =>
      if enforceConfidence then
        let confidence := (confSearch n.data).getD 0
        if confidence < 50 ∧ attempt < maxAttempts then .retry
        else .done (.ok n)
      else .done (.ok n)

/-- One iteration of the attempt loop of `LLMClient.query`, together with
the number of transport calls it makes.  A 404 against the default endpoint
restarts the supervisor and resends once; a failure of that resend
propagates unwrapped.  Other HTTP errors and network errors retry until the
attempt budget is spent, then raise `LLMInferenceError`. -/
def queryAttempt (transport : Nat → TransportOutcome)
    (isDefaultEndpoint : Bool)
    (normalizer : Option (String → Except String String))
    (enforceConfidence : Bool) (fallback : String)
    (attempt call : Nat) : StepOut × Nat :=
  match transport call with
  | .netError =>
    if attempt = maxAttempts then (.done (.error (.inference netHint)), 1)
    else (.retry, 1)
  | .httpError status =>
    if status = 404 ∧ isDefaultEndpoint then
      match transport (call + 1) with
      | .success p =>
        (handleSuccess normalizer enforceConfidence fallback attempt p, 2)
      | _ => (.done (.error .uncaught), 2)
    else
      if attempt = maxAttempts then
        (.done (.error (.inference (httpHint status))), 1)
      else (.retry, 1)
  | .success p =>
    (handleSuccess normalizer enforceConfidence fallback attempt p, 1)

/-- The attempt loop of `LLMClient.query`; `fuel` bounds the remaining
iterations (`fuel = maxAttempts + 1 - attempt` at every reachable call, and
retries only happen while `attempt < maxAttempts`, so fuel never runs
out). -/
def queryLoop (transport : Nat → TransportOutcome) (isDefaultEndpoint : Bool)
    (normalizer : Option (String → Except String String))
    (enforceConfidence : Bool) (fallback : String) :
    Nat → Nat → Nat → QueryResult
  | 0, attempt, call => ⟨.error (.inference netHint), attempt, call⟩
  | fuel + 1, attempt, call =>
    let step := queryAttempt transport isDefaultEndpoint normalizer
      enforceConfidence fallback attempt call
    match step.1 with
    | .done r => ⟨r, attempt, call + step.2⟩
    | .retry =>
      queryLoop transport isDefaultEndpoint normalizer enforceConfidence
        fallback fuel (attempt + 1) (call + step.2)

/-- `LLMClient.query` (llm.py): up to ten attempts against the transport
(the Python defaults are `normalizer = _normalize_gender_output`,
`enforce_confidence = True`, `fallback = "unbekannt 0%"`). -/
def query (transport : Nat → TransportOutcome) (isDefaultEndpoint : Bool)
    (normalizer : Option (String → Except String String))
    (enforceConfidence : Bool) (fallback : String) : QueryResult :=
  queryLoop transport isDefaultEndpoint normalizer enforceConfidence fallback
    maxAttempts 1 0

/-- A transport whose first response carries an empty payload and whose
later responses carry a valid answer. -/
def emptyThenGoodTransport : Nat → TransportOutcome := fun i =>
  if i = 0 then .success { response := some "", output := none }
  else .success { response := some "weiblich 80%", output := none }


/-! ## Lemmas about the persistence layer -/

theorem rowId_listingRow (l : Listing) :
    rowId (listingRow l) =
      if l.listing_id ≠ "" then some l.listing_id else none := by
  by_cases h : l.listing_id = "" <;> simp [rowId, cellId, listingRow, h]

theorem contains_addId (ids : List String) (s x : String) :
    (addId ids s).contains x = (ids.contains x || x == s) := by
  by_cases h : ids.contains s <;> by_cases hx : x = s <;> simp_all [addId]

theorem loadExisting_append_noId (rows : List Row) (r : Row)
    (h : rowId r = none) :
    loadExistingListingIds (some (rows ++ [r]))
      = loadExistingListingIds (some rows) := by
  simp [loadExistingListingIds, List.foldl_append, loadStep, h]

theorem loadExisting_getD (file : ExcelFile) :
    loadExistingListingIds (some (file.getD []))
      = loadExistingListingIds file := by
  cases file <;> rfl

/-- Claim C10: A listing whose `listing_id` is the empty string is exempt from
deduplication: `write_listings_to_excel` appends it unconditionally on every
call (twice within one call, and again on a repeated call), and its row never
contributes an identifier to the existing-ID set. -/
theorem write_empty_id_exempt (l : Listing) (file : ExcelFile)
    (h : l.listing_id = "") :
    writeListingsToExcel [l] file = file.getD [] ++ [listingRow l]
    ∧ writeListingsToExcel [l, l] file
        = file.getD [] ++ [listingRow l, listingRow l]
    ∧ writeListingsToExcel [l] (some (writeListingsToExcel [l] file))
        = file.getD [] ++ [listingRow l, listingRow l]
    ∧ rowId (listingRow l) = none
    ∧ loadExistingListingIds (some (writeListingsToExcel [l] file))
        = loadExistingListingIds file := by
  have hrow : rowId (listingRow l) = none := by simp [rowId_listingRow, h]
  have h1 : writeListingsToExcel [l] file = file.getD [] ++ [listingRow l] := by
    simp [writeListingsToExcel, writeStep, h]
  refine ⟨h1, ?_, ?_, hrow, ?_⟩
  · simp [writeListingsToExcel, writeStep, h]
  · rw [h1]
    simp [writeListingsToExcel, writeStep, h, List.append_assoc]
  · rw [h1, loadExisting_append_noId _ _ hrow, loadExisting_getD]

/-- Witness for `write_empty_id_exempt` at a concrete empty-id listing and a
missing file. -/
theorem write_empty_id_exempt_witness :
    ({ title := "t", url := "https://x", listing_id := "" } : Listing).listing_id = ""
    ∧ writeListingsToExcel
        [{ title := "t", url := "https://x", listing_id := "" }] none
      = (none : ExcelFile).getD []
          ++ [listingRow { title := "t", url := "https://x", listing_id := "" }]
    ∧ writeListingsToExcel
        [{ title := "t", url := "https://x", listing_id := "" },
         { title := "t", url := "https://x", listing_id := "" }] none
      = (none : ExcelFile).getD []
          ++ [listingRow { title := "t", url := "https://x", listing_id := "" },
              listingRow { title := "t", url := "https://x", listing_id := "" }] :=
  ⟨rfl,
    (write_empty_id_exempt { title := "t", url := "https://x", listing_id := "" }
      none rfl).1,
    (write_empty_id_exempt { title := "t", url := "https://x", listing_id := "" }
      none rfl).2.1⟩

theorem loadExisting_contains (rows : List Row) (x : String) :
    (loadExistingListingIds (some rows)).contains x
      = rows.any (fun r => rowId r == some x) := by
  suffices h : ∀ acc : List String,
      (rows.foldl loadStep acc).contains x
        = (acc.contains x || rows.any (fun r => rowId r == some x)) by
    simpa [loadExistingListingIds] using h []
  induction rows with
  | nil => intro acc; simp
  | cons r rest ih =>
    intro acc
    rw [List.foldl_cons, List.any_cons]
    cases hr : rowId r with
    | none =>
      have hs : loadStep acc r = acc := by simp [loadStep, hr]
      rw [hs, ih]
      simp
    | some s =>
      have hs : loadStep acc r = addId acc s := by simp [loadStep, hr]
      rw [hs, ih, contains_addId]
      by_cases hxs : x = s
      · subst hxs; simp [Bool.or_assoc, Bool.or_comm, Bool.or_left_comm]
      · have h1 : (x == s) = false := by simp [hxs]
        have h2 : (s == x) = false := by simp [Ne.symm hxs]
        simp [h1, h2]

theorem fileCountId_append (rows₁ rows₂ : List Row) (id : String) :
    fileCountId (rows₁ ++ rows₂) id
      = fileCountId rows₁ id + fileCountId rows₂ id := by
  simp [fileCountId, List.filter_append]

theorem fileCountId_single (l : Listing) (id : String) :
    fileCountId [listingRow l] id = if l.listing_id = id then 1 else 0 := by
  have hgd : (listingRow l)[8]?.getD none = some l.listing_id := rfl
  by_cases h : l.listing_id = id <;>
    simp [fileCountId, List.filter_cons, hgd, h]

theorem getD_of_rowId (r : Row) (id : String) (h : rowId r = some id) :
    r.getD 8 none = some id ∧ id ≠ "" := by
  unfold rowId at h
  by_cases hlen : r.length < 9
  · rw [if_pos hlen] at h; exact absurd h (by simp)
  · rw [if_neg hlen] at h
    cases hc : r.getD 8 none with
    | none => rw [hc] at h; exact absurd h (by simp [cellId])
    | some s =>
      rw [hc] at h
      by_cases hs : s ≠ ""
      · rw [show cellId (some s) = some s from by simp [cellId, hs]] at h
        injection h with h2
        subst h2
        exact ⟨rfl, hs⟩
      · rw [show cellId (some s) = none from by simp [cellId, hs]] at h
        exact absurd h (by simp)

theorem rowId_of_getD (r : Row) (id : String) (hid : id ≠ "")
    (h : r.getD 8 none = some id) : rowId r = some id := by
  have hlen : ¬ r.length < 9 := by
    intro hl
    rw [List.getD_eq_getElem?_getD, List.getElem?_eq_none (by omega)] at h
    exact absurd h (by simp)
  unfold rowId
  rw [if_neg hlen, h]
  simp [cellId, hid]

theorem count_pos_of_loaded (rows : List Row) (id : String)
    (h : (loadExistingListingIds (some rows)).contains id = true) :
    1 ≤ fileCountId rows id := by
  rw [loadExisting_contains] at h
  obtain ⟨r, hr, hrid⟩ := List.any_eq_true.mp h
  have hget := (getD_of_rowId r id (by simpa using hrid)).1
  have hmem : r ∈ rows.filter (fun row => row.getD 8 none = some id) :=
    List.mem_filter.mpr ⟨hr, by simpa using hget⟩
  have := List.length_pos.mpr (List.ne_nil_of_mem hmem)
  simpa [fileCountId] using this

theorem loaded_of_count_pos (rows : List Row) (id : String) (hid : id ≠ "")
    (h : 1 ≤ fileCountId rows id) :
    (loadExistingListingIds (some rows)).contains id = true := by
  rw [loadExisting_contains]
  have hne : rows.filter (fun row => row.getD 8 none = some id) ≠ [] := by
    intro hnil
    rw [fileCountId, hnil] at h
    simp at h
  obtain ⟨r, hr⟩ := List.exists_mem_of_ne_nil _ hne
  obtain ⟨hrows, hget⟩ := List.mem_filter.mp hr
  exact List.any_eq_true.mpr
    ⟨r, hrows, by simp [rowId_of_getD r id hid (by simpa using hget)]⟩

theorem writeStep_invariant (id : String) (hid : id ≠ "") (st : WriteState)
    (l : Listing) (h : IdInvariant id st) : IdInvariant id (writeStep st l) := by
  obtain ⟨h1, h2⟩ := h
  unfold writeStep
  by_cases hskip : l.listing_id ≠ "" ∧ st.ids.contains l.listing_id = true
  · rw [if_pos hskip]; exact ⟨h1, h2⟩
  · rw [if_neg hskip]
    by_cases heq : l.listing_id = id
    · subst heq
      have hidl : l.listing_id ≠ "" := hid
      have hnc : st.ids.contains l.listing_id = false := by
        cases hcb : st.ids.contains l.listing_id with
        | false => rfl
        | true => exact absurd ⟨hidl, hcb⟩ hskip
      have hc0 : fileCountId st.rows l.listing_id = 0 := by
        by_contra hne
        have ht := h2 (by omega)
        rw [ht] at hnc
        exact Bool.noConfusion hnc
      constructor
      · simp [fileCountId_append, fileCountId_single, hc0]
      · intro _
        show (if l.listing_id ≠ "" then addId st.ids l.listing_id
            else st.ids).contains l.listing_id = true
        rw [if_pos hidl, contains_addId]
        simp
    · constructor
      · simpa [fileCountId_append, fileCountId_single, heq] using h1
      · intro hcnt
        have hcnt' : 1 ≤ fileCountId st.rows id := by
          have hap := fileCountId_append st.rows [listingRow l] id
          rw [fileCountId_single, if_neg heq] at hap
          simp only [WriteState.rows] at hcnt
          omega
        have ht := h2 hcnt'
        show (if l.listing_id ≠ "" then addId st.ids l.listing_id
            else st.ids).contains id = true
        by_cases hidl : l.listing_id ≠ ""
        · rw [if_pos hidl, contains_addId, ht]
          simp
        · rw [if_neg hidl]; exact ht

theorem writeFold_invariant (id : String) (hid : id ≠ "")
    (listings : List Listing) (st : WriteState) (h : IdInvariant id st) :
    IdInvariant id (listings.foldl writeStep st) := by
  induction listings generalizing st with
  | nil => exact h
  | cons l rest ih => exact ih _ (writeStep_invariant id hid st l h)

theorem initial_invariant (id : String) (hid : id ≠ "") (file : ExcelFile)
    (hc : fileCountId (file.getD []) id ≤ 1) :
    IdInvariant id ⟨file.getD [], loadExistingListingIds file⟩ := by
  refine ⟨hc, fun h1 => ?_⟩
  rw [← loadExisting_getD]
  exact loaded_of_count_pos _ _ hid h1

theorem write_preserves_count (listings : List Listing) (file : ExcelFile)
    (id : String) (hid : id ≠ "")
    (hc : fileCountId (file.getD []) id ≤ 1) :
    fileCountId (writeListingsToExcel listings file) id ≤ 1 :=
  (writeFold_invariant id hid listings _ (initial_invariant id hid file hc)).1

theorem write_skips_known (l : Listing) (rest : List Listing)
    (file : ExcelFile) (hid : l.listing_id ≠ "")
    (h : (loadExistingListingIds file).contains l.listing_id = true) :
    writeListingsToExcel (l :: rest) file = writeListingsToExcel rest file := by
  unfold writeListingsToExcel
  rw [List.foldl_cons]
  congr 1
  unfold writeStep
  rw [if_pos ⟨hid, h⟩]

theorem write_single_new (l : Listing) (file : ExcelFile)
    (h : (loadExistingListingIds file).contains l.listing_id = false) :
    writeListingsToExcel [l] file = file.getD [] ++ [listingRow l] := by
  unfold writeListingsToExcel writeStep
  rw [List.foldl_cons, List.foldl_nil]
  rw [if_neg]
  rintro ⟨-, hcon⟩
  rw [h] at hcon
  exact Bool.noConfusion hcon

theorem write_single_count (l : Listing) (file : ExcelFile)
    (hid : l.listing_id ≠ "")
    (hc : fileCountId (file.getD []) l.listing_id ≤ 1) :
    fileCountId (writeListingsToExcel [l] file) l.listing_id = 1 := by
  by_cases h : (loadExistingListingIds file).contains l.listing_id = true
  · rw [write_skips_known l [] file hid h]
    have hpos : 1 ≤ fileCountId (file.getD []) l.listing_id := by
      rw [← loadExisting_getD] at h
      exact count_pos_of_loaded _ _ h
    have : writeListingsToExcel [] file = file.getD [] := rfl
    rw [this]
    omega
  · have hnc : (loadExistingListingIds file).contains l.listing_id = false := by
      cases hcb : (loadExistingListingIds file).contains l.listing_id with
      | false => rfl
      | true => exact absurd hcb h
    have hc0 : fileCountId (file.getD []) l.listing_id = 0 := by
      by_contra hne
      have := loaded_of_count_pos (file.getD []) l.listing_id hid (by omega)
      rw [loadExisting_getD] at this
      rw [this] at hnc
      exact Bool.noConfusion hnc
    rw [write_single_new l file hnc]
    simp [fileCountId_append, fileCountId_single, hc0]

/-- Claim C5: Persistence append is idempotent on (non-empty) listing
identifiers: a listing whose identifier is already stored is skipped, so
appending the same identifier twice — across two calls or within one call —
leaves exactly one stored row for it; with id `"123"` already stored,
appending listings `"123"` and `"456"` adds only the `"456"` row. -/
theorem write_idempotent_identifiers :
    (∀ (l : Listing) (rest : List Listing) (file : ExcelFile),
        l.listing_id ≠ "" →
        (loadExistingListingIds file).contains l.listing_id = true →
        writeListingsToExcel (l :: rest) file = writeListingsToExcel rest file)
    ∧ (∀ (l₁ l₂ : Listing) (file : ExcelFile),
        l₁.listing_id ≠ "" → l₂.listing_id = l₁.listing_id →
        fileCountId (file.getD []) l₁.listing_id ≤ 1 →
        fileCountId (writeListingsToExcel [l₂]
            (some (writeListingsToExcel [l₁] file))) l₁.listing_id = 1
          ∧ fileCountId (writeListingsToExcel [l₁, l₂] file) l₁.listing_id = 1)
    ∧ (∀ (a b : Listing) (file : ExcelFile),
        a.listing_id = "123" → b.listing_id = "456" →
        (loadExistingListingIds file).contains "123" = true →
        (loadExistingListingIds file).contains "456" = false →
        writeListingsToExcel [a, b] file = file.getD [] ++ [listingRow b]) := by
  refine ⟨write_skips_known, ?_, ?_⟩
  · intro l₁ l₂ file h1 heq hc
    have h2 : l₂.listing_id ≠ "" := by rw [heq]; exact h1
    have c1 := write_single_count l₁ file h1 hc
    constructor
    · have c2 := write_single_count l₂ (some (writeListingsToExcel [l₁] file))
        h2 (by rw [heq]; simpa using Nat.le_of_eq c1)
      rw [← heq]
      exact c2
    · by_cases hcon : (loadExistingListingIds file).contains l₁.listing_id = true
      · rw [write_skips_known l₁ [l₂] file h1 hcon, ← heq]
        exact write_single_count l₂ file h2 (by rw [heq]; exact hc)
      · have hnc : (loadExistingListingIds file).contains l₁.listing_id = false := by
          cases hcb : (loadExistingListingIds file).contains l₁.listing_id with
          | false => rfl
          | true => exact absurd hcb hcon
        have hc0 : fileCountId (file.getD []) l₁.listing_id = 0 := by
          by_contra hne
          have hld := loaded_of_count_pos (file.getD []) l₁.listing_id h1 (by omega)
          rw [loadExisting_getD, hnc] at hld
          exact Bool.noConfusion hld
        unfold writeListingsToExcel
        rw [List.foldl_cons, List.foldl_cons, List.foldl_nil]
        have hstep1 : writeStep
            { rows := file.getD [], ids := loadExistingListingIds file } l₁
            = { rows := file.getD [] ++ [listingRow l₁],
                ids := addId (loadExistingListingIds file) l₁.listing_id } := by
          have hmem : l₁.listing_id ∉ loadExistingListingIds file := by
            simpa using hnc
          simp [writeStep, hmem, h1]
        rw [hstep1]
        have hstep2 : writeStep
            { rows := file.getD [] ++ [listingRow l₁],
              ids := addId (loadExistingListingIds file) l₁.listing_id } l₂
            = { rows := file.getD [] ++ [listingRow l₁],
                ids := addId (loadExistingListingIds file) l₁.listing_id } := by
          unfold writeStep
          rw [if_pos]
          refine ⟨h2, ?_⟩
          rw [heq, contains_addId]
          simp
        rw [hstep2]
        simp [fileCountId_append, fileCountId_single, hc0]
  · intro a b file ha hb hc123 hc456
    have hskip := write_skips_known a [b] file
      (by rw [ha]; exact by decide) (by rw [ha]; exact hc123)
    rw [hskip, write_single_new b file (by rw [hb]; exact hc456)]

/-- Witness for `write_idempotent_identifiers`: a file already holding id
`"123"`, to which a `"123"` listing and a `"456"` listing are appended. -/
theorem write_idempotent_identifiers_witness :
    ({ title := "A2", url := "u2", listing_id := "123" } : Listing).listing_id = "123"
    ∧ ({ title := "B", url := "ub", listing_id := "456" } : Listing).listing_id = "456"
    ∧ (loadExistingListingIds
        (some [listingRow { title := "A", url := "u", listing_id := "123" }])).contains "123" = true
    ∧ (loadExistingListingIds
        (some [listingRow { title := "A", url := "u", listing_id := "123" }])).contains "456" = false
    ∧ writeListingsToExcel
        [{ title := "A2", url := "u2", listing_id := "123" },
         { title := "B", url := "ub", listing_id := "456" }]
        (some [listingRow { title := "A", url := "u", listing_id := "123" }])
      = (some [listingRow { title := "A", url := "u", listing_id := "123" }]).getD []
          ++ [listingRow { title := "B", url := "ub", listing_id := "456" }] :=
  ⟨rfl, rfl, by decide, by decide,
    write_idempotent_identifiers.2.2
      { title := "A2", url := "u2", listing_id := "123" }
      { title := "B", url := "ub", listing_id := "456" }
      (some [listingRow { title := "A", url := "u", listing_id := "123" }])
      rfl rfl (by decide) (by decide)⟩

/-! ## Lemmas about the detail enricher -/

theorem applyAttr_listing_id (l : Listing) (lab value : String)
    (h : containsSub (normalizeLabel lab) "anzeigenkennung".data = false) :
    (applyAttr l lab value).listing_id = l.listing_id := by
  unfold applyAttr
  by_cases h1 : containsSub (normalizeLabel lab) "geschlecht".data = true
  · simp [h1]
  · by_cases h2 : containsSub (normalizeLabel lab) "interesse an geld".data = true
    · simp [h1, h2]
    · simp [h1, h2, h]

theorem foldAttr_listing_id (ps : List (String × String)) (l : Listing)
    (h : ∀ p ∈ ps, containsSub (normalizeLabel p.1) "anzeigenkennung".data = false) :
    (ps.foldl (fun acc p => applyAttr acc p.1 p.2) l).listing_id
      = l.listing_id := by
  induction ps generalizing l with
  | nil => rfl
  | cons p rest ih =>
    rw [List.foldl_cons, ih _ (fun q hq => h q (List.mem_cons_of_mem _ hq)),
      applyAttr_listing_id _ _ _ (h p (List.mem_cons_self _ _))]

theorem applyLocation_listing_id (d : ExtractedDetails) (l : Listing) :
    (applyLocation d l).listing_id = l.listing_id := by
  unfold applyLocation
  cases d.locationText with
  | none => rfl
  | some t => by_cases h : t ≠ "" <;> simp [h]

theorem applyDate_listing_id (d : ExtractedDetails) (l : Listing) :
    (applyDate d l).listing_id = l.listing_id := rfl

theorem applyBody_listing_id (d : ExtractedDetails) (l : Listing) :
    (applyBody d l).listing_id = l.listing_id := rfl

theorem applyUsername_listing_id (d : ExtractedDetails) (l : Listing) :
    (applyUsername d l).listing_id = l.listing_id := by
  unfold applyUsername
  cases d.usernameText with
  | none => rfl
  | some t => by_cases h : t ≠ "" <;> simp [h]

theorem parseDetails_listing_id (d : ExtractedDetails) (l : Listing)
    (h : ∀ p ∈ d.labels.zip d.descriptions,
        containsSub (normalizeLabel p.1) "anzeigenkennung".data = false) :
    (parseListingDetails d l).listing_id = l.listing_id := by
  unfold parseListingDetails
  rw [foldAttr_listing_id _ _ h, applyUsername_listing_id, applyBody_listing_id,
    applyDate_listing_id, applyLocation_listing_id]

theorem genderFromLLM_listing_id (env : EnrichEnv) (l : Listing) :
    (genderFromLLM env l).listing_id = l.listing_id := by
  unfold genderFromLLM
  split
  · split <;> rfl
  · rfl

theorem inferGenderStep_listing_id (env : EnrichEnv) (l : Listing) :
    (inferGenderStep env l).listing_id = l.listing_id := by
  unfold inferGenderStep
  split
  · split
    · exact genderFromLLM_listing_id env l
    · exact genderFromLLM_listing_id env l
  · rfl

theorem inferAudienceStep_listing_id (env : EnrichEnv) (l : Listing) :
    (inferAudienceStep env l).listing_id = l.listing_id := by
  unfold inferAudienceStep
  split
  · split <;> rfl
  · rfl

theorem populate_adds_sentinel (env : EnrichEnv) (l : Listing)
    (known : List String) (d : ExtractedDetails)
    (hd : env.details l = .ok d)
    (hlabels : ∀ p ∈ d.labels.zip d.descriptions,
        containsSub (normalizeLabel p.1) "anzeigenkennung".data = false)
    (hsent : l.listing_id = "nicht angegeben") :
    (populateListing env l known).2.contains "nicht angegeben" = true := by
  unfold populateListing
  rw [hd]
  have hid : (inferAudienceStep env (inferGenderStep env
      (parseListingDetails d l))).listing_id = "nicht angegeben" := by
    rw [inferAudienceStep_listing_id, inferGenderStep_listing_id,
      parseDetails_listing_id _ _ hlabels, hsent]
  show (addKnownStep _ known).contains "nicht angegeben" = true
  unfold addKnownStep
  rw [hid, if_pos (by decide), contains_addId]
  simp

theorem foldWrite_count_le_one (id : String) (hid : id ≠ "")
    (batches : List (List Listing)) :
    ∀ rows : List Row, fileCountId rows id ≤ 1 →
      fileCountId
        (batches.foldl (fun rows b => writeListingsToExcel b (some rows)) rows)
        id ≤ 1 := by
  induction batches with
  | nil => intro rows h; exact h
  | cons b rest ih =>
    intro rows h
    rw [List.foldl_cons]
    exact ih _ (write_preserves_count b (some rows) id hid (by simpa using h))

/-- Claim C9: Listings without a site-provided identifier share the sentinel
dedup key: `listing_id` defaults to `"nicht angegeben"` (also after
`__post_init__`), which is non-empty; the enricher records the sentinel in
the known-ID set like a real identifier whenever the attribute table holds
no `Anzeigenkennung` label; once a sentinel row is stored,
`write_listings_to_excel` skips every further sentinel listing, and any
sequence of writes starting from a fresh file stores at most one sentinel
row. -/
theorem sentinel_dedup :
    (∀ t u : String, ({ title := t, url := u } : Listing).listing_id
        = "nicht angegeben")
    ∧ (∀ t u : String, (postInit { title := t, url := u }).listing_id
        = "nicht angegeben")
    ∧ ("nicht angegeben" : String) ≠ ""
    ∧ (∀ (env : EnrichEnv) (l : Listing) (known : List String)
        (d : ExtractedDetails),
        env.details l = .ok d →
        (∀ p ∈ d.labels.zip d.descriptions,
            containsSub (normalizeLabel p.1) "anzeigenkennung".data = false) →
        l.listing_id = "nicht angegeben" →
        (populateListing env l known).2.contains "nicht angegeben" = true)
    ∧ (∀ (l : Listing) (rest : List Listing) (file : ExcelFile),
        l.listing_id = "nicht angegeben" →
        (loadExistingListingIds file).contains "nicht angegeben" = true →
        writeListingsToExcel (l :: rest) file = writeListingsToExcel rest file)
    ∧ (∀ batches : List (List Listing),
        fileCountId
          (batches.foldl (fun rows b => writeListingsToExcel b (some rows)) [])
          "nicht angegeben" ≤ 1) := by
  refine ⟨fun t u => rfl, fun t u => rfl, by decide, populate_adds_sentinel,
    ?_, ?_⟩
  · intro l rest file hsent hcon
    exact write_skips_known l rest file (by rw [hsent]; exact by decide)
      (by rw [hsent]; exact hcon)
  · intro batches
    exact foldWrite_count_le_one "nicht angegeben" (by decide) batches []
      (by simp [fileCountId])

/-- Witness for `sentinel_dedup`: an enrichment environment whose detail
page yields no attribute table, and a batch sequence storing two sentinel
listings. -/
theorem sentinel_dedup_witness :
    (({ details := fun _ => .ok {},
        genderLLM := fun _ => .ok (some "weiblich 90%"),
        audienceLLM := fun _ => .ok (some "bi") } : EnrichEnv).details
          { title := "T", url := "U" } = .ok {})
    ∧ ((populateListing
        { details := fun _ => .ok {},
          genderLLM := fun _ => .ok (some "weiblich 90%"),
          audienceLLM := fun _ => .ok (some "bi") }
        { title := "T", url := "U" } []).2.contains "nicht angegeben" = true)
    ∧ fileCountId
        ([[({ title := "T", url := "U" } : Listing)],
          [({ title := "T2", url := "U2" } : Listing)]].foldl
          (fun rows b => writeListingsToExcel b (some rows)) [])
        "nicht angegeben" ≤ 1 :=
  ⟨rfl,
    sentinel_dedup.2.2.2.1
      { details := fun _ => .ok {},
        genderLLM := fun _ => .ok (some "weiblich 90%"),
        audienceLLM := fun _ => .ok (some "bi") }
      { title := "T", url := "U" } [] {} rfl
      (fun p hp => absurd hp (List.not_mem_nil p)) rfl,
    sentinel_dedup.2.2.2.2.2
      [[{ title := "T", url := "U" }], [{ title := "T2", url := "U2" }]]⟩

theorem contains_addKnownStep (l : Listing) (known : List String) (x : String) :
    (addKnownStep l known).contains x
      = (known.contains x
          || (decide (l.listing_id ≠ "") && (x == l.listing_id))) := by
  unfold addKnownStep
  by_cases h : l.listing_id ≠ ""
  · rw [if_pos h, contains_addId]
    simp [h]
  · rw [if_neg h]
    simp [h]

/-- Claim C8, counterexample: At a concrete listing and environment whose
detail page yields identifier `"999"`, the known-ID set right after
extraction — before the inference calls run — is still empty; the
identifier only appears after the whole enrichment, and an environment
extracting no identifier still adds the sentinel `"nicht angegeben"`. -/
theorem populate_adds_before_inference_counterexample :
    (populateAfterExtraction idExtractEnv
      { title := "t", url := "u" } []).1.listing_id = "999"
    ∧ (populateAfterExtraction idExtractEnv { title := "t", url := "u" } []).2 = []
    ∧ (populateListing idExtractEnv { title := "t", url := "u" } []).2 = ["999"]
    ∧ (populateListing noIdExtractEnv { title := "t", url := "u" } []).2
        = ["nicht angegeben"] :=
  ⟨rfl, rfl, rfl, rfl⟩

/-- Claim C8, amended: The enricher leaves the known-ID set untouched at the
point directly after detail extraction; only at the end of processing, after
the inference calls, does it add the final `listing_id` (the extracted
value, or the sentinel default when none was extracted) provided extraction
succeeded and the id is non-empty.  A failed extraction changes neither the
listing nor the set. -/
theorem populate_adds_id_after_inference (env : EnrichEnv) (l : Listing)
    (known : List String) :
    (populateAfterExtraction env l known).2 = known
    ∧ (∀ d, env.details l = .ok d →
        ∃ l1, populateListing env l known = (l1, addKnownStep l1 known)
          ∧ ∀ x, (addKnownStep l1 known).contains x
              = (known.contains x
                  || (decide (l1.listing_id ≠ "") && (x == l1.listing_id))))
    ∧ (∀ e : Unit, env.details l = .error e →
        populateListing env l known = (l, known)) := by
  refine ⟨?_, ?_, ?_⟩
  · unfold populateAfterExtraction
    cases env.details l <;> rfl
  · intro d hd
    refine ⟨inferAudienceStep env (inferGenderStep env (parseListingDetails d l)),
      ?_, fun x => contains_addKnownStep _ known x⟩
    unfold populateListing
    rw [hd]
  · intro e he
    unfold populateListing
    rw [he]

/-- Witness for `populate_adds_id_after_inference` at the concrete
identifier-extracting environment. -/
theorem populate_adds_id_after_inference_witness :
    idExtractEnv.details { title := "t", url := "u" }
      = .ok { labels := ["Anzeigenkennung"], descriptions := ["999"] }
    ∧ ∃ l1, populateListing idExtractEnv { title := "t", url := "u" } []
          = (l1, addKnownStep l1 [])
        ∧ ∀ x, (addKnownStep l1 []).contains x
            = (List.contains [] x
                || (decide (l1.listing_id ≠ "") && (x == l1.listing_id))) :=
  ⟨rfl,
    (populate_adds_id_after_inference idExtractEnv
      { title := "t", url := "u" } []).2.1 _ rfl⟩

/-! ## Lemmas about the page walk -/

theorem walkPageStep_dumps (env : WalkEnv) (current : Nat) (st : WalkState) :
    (walkPageStep env current st).dumps = st.dumps := by
  unfold walkPageStep
  split <;> rfl

theorem walkLoop_succ (env : WalkEnv) (fuel current : Nat) (st : WalkState) :
    walkLoop env (fuel + 1) current st
      = if (env.pages current).stubs.isEmpty then
          ⟨{ st with dumps :=
                st.dumps ++ [(current + 1, (env.pages current).content)] },
            current + 1, .emptyPage⟩
        else if (env.pages current).nextVisible then
          walkLoop env fuel (current + 1) (walkPageStep env current st)
        else ⟨walkPageStep env current st, current + 1, .noNext⟩ := rfl

theorem walkLoop_spec (env : WalkEnv) :
    ∀ (fuel current : Nat) (st : WalkState),
      (walkLoop env fuel current st).pagesVisited ≤ current + fuel
      ∧ ((walkLoop env fuel current st).stop = .pageLimit →
          (walkLoop env fuel current st).pagesVisited = current + fuel)
      ∧ ((walkLoop env fuel current st).stop = .emptyPage →
          current < (walkLoop env fuel current st).pagesVisited
          ∧ (env.pages ((walkLoop env fuel current st).pagesVisited - 1)).stubs = []
          ∧ ((walkLoop env fuel current st).pagesVisited,
              (env.pages ((walkLoop env fuel current st).pagesVisited - 1)).content)
              ∈ (walkLoop env fuel current st).state.dumps)
      ∧ ((walkLoop env fuel current st).stop = .noNext →
          (env.pages ((walkLoop env fuel current st).pagesVisited - 1)).nextVisible
              = false
          ∧ (env.pages ((walkLoop env fuel current st).pagesVisited - 1)).stubs
              ≠ []) := by
  intro fuel
  induction fuel with
  | zero =>
    intro current st
    refine ⟨by simp [walkLoop], fun _ => by simp [walkLoop], fun h => ?_,
      fun h => ?_⟩ <;> simp [walkLoop] at h
  | succ fuel ih =>
    intro current st
    by_cases hempty : (env.pages current).stubs.isEmpty = true
    · have hred : walkLoop env (fuel + 1) current st
          = ⟨{ st with dumps :=
                st.dumps ++ [(current + 1, (env.pages current).content)] },
              current + 1, .emptyPage⟩ := by
        unfold walkLoop
        rw [if_pos hempty]
      rw [hred]
      refine ⟨by show current + 1 ≤ current + (fuel + 1); omega,
        fun h => by simp at h, fun _ => ?_, fun h => by simp at h⟩
      refine ⟨by show current < current + 1; omega, ?_, ?_⟩
      · simpa using List.isEmpty_iff.mp hempty
      · simp
    · by_cases hnext : (env.pages current).nextVisible = true
      · have hred : walkLoop env (fuel + 1) current st
            = walkLoop env fuel (current + 1) (walkPageStep env current st) := by
          rw [walkLoop_succ, if_neg hempty, if_pos hnext]
        rw [hred]
        obtain ⟨ih1, ih2, ih3, ih4⟩ := ih (current + 1) (walkPageStep env current st)
        refine ⟨by omega, fun h => ?_, fun h => ?_, ih4⟩
        · have := ih2 h
          omega
        · have := ih3 h
          exact ⟨by omega, this.2.1, this.2.2⟩
      · have hnf : (env.pages current).nextVisible = false := by
          cases hb : (env.pages current).nextVisible with
          | false => rfl
          | true => exact absurd hb hnext
        have hred : walkLoop env (fuel + 1) current st
            = ⟨walkPageStep env current st, current + 1, .noNext⟩ := by
          unfold walkLoop
          rw [if_neg hempty, if_neg]
          rw [hnf]
          exact Bool.false_ne_true
        rw [hred]
        refine ⟨by show current + 1 ≤ current + (fuel + 1); omega,
          fun h => by simp at h, fun h => by simp at h,
          fun _ => ?_⟩
        constructor
        · simpa using hnf
        · have : ¬ (env.pages current).stubs = [] := by
            intro hnil
            exact hempty (List.isEmpty_iff.mpr hnil)
          simpa using this

theorem walkLoop_control_indep (pages : Nat → PageContent)
    (en₁ en₂ : EnrichEnv) (pe₁ pe₂ : Bool) :
    ∀ (fuel current : Nat) (st₁ st₂ : WalkState), st₁.dumps = st₂.dumps →
      (walkLoop ⟨pages, en₁, pe₁⟩ fuel current st₁).pagesVisited
        = (walkLoop ⟨pages, en₂, pe₂⟩ fuel current st₂).pagesVisited
      ∧ (walkLoop ⟨pages, en₁, pe₁⟩ fuel current st₁).stop
        = (walkLoop ⟨pages, en₂, pe₂⟩ fuel current st₂).stop
      ∧ (walkLoop ⟨pages, en₁, pe₁⟩ fuel current st₁).state.dumps
        = (walkLoop ⟨pages, en₂, pe₂⟩ fuel current st₂).state.dumps := by
  intro fuel
  induction fuel with
  | zero => intro current st₁ st₂ hd; exact ⟨rfl, rfl, hd⟩
  | succ fuel ih =>
    intro current st₁ st₂ hd
    by_cases hempty : (pages current).stubs.isEmpty = true
    · have h₁ : walkLoop ⟨pages, en₁, pe₁⟩ (fuel + 1) current st₁
          = ⟨{ st₁ with dumps :=
                st₁.dumps ++ [(current + 1, (pages current).content)] },
              current + 1, .emptyPage⟩ := by
        unfold walkLoop
        rw [if_pos hempty]
      have h₂ : walkLoop ⟨pages, en₂, pe₂⟩ (fuel + 1) current st₂
          = ⟨{ st₂ with dumps :=
                st₂.dumps ++ [(current + 1, (pages current).content)] },
              current + 1, .emptyPage⟩ := by
        unfold walkLoop
        rw [if_pos hempty]
      rw [h₁, h₂]
      exact ⟨rfl, rfl, by simp [hd]⟩
    · by_cases hnext : (pages current).nextVisible = true
      · have h₁ : walkLoop ⟨pages, en₁, pe₁⟩ (fuel + 1) current st₁
            = walkLoop ⟨pages, en₁, pe₁⟩ fuel (current + 1)
                (walkPageStep ⟨pages, en₁, pe₁⟩ current st₁) := by
          rw [walkLoop_succ, if_neg hempty, if_pos hnext]
        have h₂ : walkLoop ⟨pages, en₂, pe₂⟩ (fuel + 1) current st₂
            = walkLoop ⟨pages, en₂, pe₂⟩ fuel (current + 1)
                (walkPageStep ⟨pages, en₂, pe₂⟩ current st₂) := by
          rw [walkLoop_succ, if_neg hempty, if_pos hnext]
        rw [h₁, h₂]
        exact ih (current + 1) _ _
          (by rw [walkPageStep_dumps, walkPageStep_dumps, hd])
      · have h₁ : walkLoop ⟨pages, en₁, pe₁⟩ (fuel + 1) current st₁
            = ⟨walkPageStep ⟨pages, en₁, pe₁⟩ current st₁, current + 1,
                .noNext⟩ := by
          unfold walkLoop
          rw [if_neg hempty, if_neg hnext]
        have h₂ : walkLoop ⟨pages, en₂, pe₂⟩ (fuel + 1) current st₂
            = ⟨walkPageStep ⟨pages, en₂, pe₂⟩ current st₂, current + 1,
                .noNext⟩ := by
          unfold walkLoop
          rw [if_neg hempty, if_neg hnext]
        rw [h₁, h₂]
        exact ⟨rfl, rfl, by rw [walkPageStep_dumps, walkPageStep_dumps, hd]⟩

/-- Claim C7: The page walk terminates only on its listed terminal
conditions. It visits at most `max_pages` index pages; a page-limit stop
visits exactly `max_pages` pages; an empty-page stop happens on a page with
zero stubs and dumps the raw content of that page to a diagnostic entry; a
no-next stop happens after processing a non-empty page whose next control
is not visible; and the control flow (pages visited, stop reason, dumps) is
completely independent of the enrichment environment, the known-ID seed and
the progress configuration — individual enrichment errors never stop the
walk. -/
theorem scrapePages_termination (pages : Nat → PageContent) (en : EnrichEnv)
    (pe : Bool) (maxPages : Nat) (known₀ : List String) (prog₀ : ExcelFile) :
    (scrapePages ⟨pages, en, pe⟩ maxPages known₀ prog₀).pagesVisited ≤ maxPages
    ∧ ((scrapePages ⟨pages, en, pe⟩ maxPages known₀ prog₀).stop = .pageLimit →
        (scrapePages ⟨pages, en, pe⟩ maxPages known₀ prog₀).pagesVisited
          = maxPages)
    ∧ ((scrapePages ⟨pages, en, pe⟩ maxPages known₀ prog₀).stop = .emptyPage →
        1 ≤ (scrapePages ⟨pages, en, pe⟩ maxPages known₀ prog₀).pagesVisited
        ∧ (pages ((scrapePages ⟨pages, en, pe⟩ maxPages known₀
            prog₀).pagesVisited - 1)).stubs = []
        ∧ ((scrapePages ⟨pages, en, pe⟩ maxPages known₀ prog₀).pagesVisited,
            (pages ((scrapePages ⟨pages, en, pe⟩ maxPages known₀
              prog₀).pagesVisited - 1)).content)
            ∈ (scrapePages ⟨pages, en, pe⟩ maxPages known₀ prog₀).state.dumps)
    ∧ ((scrapePages ⟨pages, en, pe⟩ maxPages known₀ prog₀).stop = .noNext →
        (pages ((scrapePages ⟨pages, en, pe⟩ maxPages known₀
          prog₀).pagesVisited - 1)).nextVisible = false
        ∧ (pages ((scrapePages ⟨pages, en, pe⟩ maxPages known₀
            prog₀).pagesVisited - 1)).stubs ≠ [])
    ∧ (∀ (en₂ : EnrichEnv) (pe₂ : Bool) (known₂ : List String)
        (prog₂ : ExcelFile),
        (scrapePages ⟨pages, en₂, pe₂⟩ maxPages known₂ prog₂).pagesVisited
          = (scrapePages ⟨pages, en, pe⟩ maxPages known₀ prog₀).pagesVisited
        ∧ (scrapePages ⟨pages, en₂, pe₂⟩ maxPages known₂ prog₂).stop
          = (scrapePages ⟨pages, en, pe⟩ maxPages known₀ prog₀).stop
        ∧ (scrapePages ⟨pages, en₂, pe₂⟩ maxPages known₂ prog₂).state.dumps
          = (scrapePages ⟨pages, en, pe⟩ maxPages known₀ prog₀).state.dumps) := by
  obtain ⟨h1, h2, h3, h4⟩ := walkLoop_spec ⟨pages, en, pe⟩ maxPages 0
    { listings := [], known := known₀, processed := 0, added := 0,
      dumps := [], progress := prog₀ }
  refine ⟨by simpa using h1, fun h => by simpa using h2 h,
    fun h => ⟨(h3 h).1, (h3 h).2.1, (h3 h).2.2⟩, h4, ?_⟩
  intro en₂ pe₂ known₂ prog₂
  exact walkLoop_control_indep pages en₂ en pe₂ pe maxPages 0 _ _ rfl

/-- Witness for `scrapePages_termination`: the two-page demo environment —
the walk stops on the empty second page after two pages and dumps its raw
content. -/
theorem scrapePages_termination_witness :
    (scrapePages ⟨walkDemoPages, walkDemoEnrich, false⟩ 5 [] none).stop
        = .emptyPage
    ∧ 1 ≤ (scrapePages ⟨walkDemoPages, walkDemoEnrich, false⟩ 5 [] none).pagesVisited
    ∧ (walkDemoPages ((scrapePages ⟨walkDemoPages, walkDemoEnrich, false⟩ 5 []
        none).pagesVisited - 1)).stubs = []
    ∧ ((scrapePages ⟨walkDemoPages, walkDemoEnrich, false⟩ 5 [] none).pagesVisited,
        (walkDemoPages ((scrapePages ⟨walkDemoPages, walkDemoEnrich, false⟩ 5 []
          none).pagesVisited - 1)).content)
        ∈ (scrapePages ⟨walkDemoPages, walkDemoEnrich, false⟩ 5 [] none).state.dumps :=
  ⟨by decide,
    ((scrapePages_termination walkDemoPages walkDemoEnrich false 5 [] none).2.2.1
      (by decide)).1,
    ((scrapePages_termination walkDemoPages walkDemoEnrich false 5 [] none).2.2.1
      (by decide)).2.1,
    ((scrapePages_termination walkDemoPages walkDemoEnrich false 5 [] none).2.2.1
      (by decide)).2.2⟩

/-! ## Lemmas about the inference client -/

theorem queryLoop_step (t : Nat → TransportOutcome) (d : Bool)
    (n : Option (String → Except String String)) (e : Bool) (f : String)
    (fuel attempt call : Nat) :
    queryLoop t d n e f (fuel + 1) attempt call
      = match (queryAttempt t d n e f attempt call).1 with
        | .done r => ⟨r, attempt, call + (queryAttempt t d n e f attempt call).2⟩
        | .retry => queryLoop t d n e f fuel (attempt + 1)
            (call + (queryAttempt t d n e f attempt call).2) := rfl

theorem queryLoop_done (t : Nat → TransportOutcome) (d : Bool)
    (n : Option (String → Except String String)) (e : Bool) (f : String)
    (fuel attempt call : Nat) (r : Except QueryError String) (used : Nat)
    (h : queryAttempt t d n e f attempt call = (.done r, used)) :
    queryLoop t d n e f (fuel + 1) attempt call = ⟨r, attempt, call + used⟩ := by
  rw [queryLoop_step, h]

theorem queryLoop_retry (t : Nat → TransportOutcome) (d : Bool)
    (n : Option (String → Except String String)) (e : Bool) (f : String)
    (fuel attempt call used : Nat)
    (h : queryAttempt t d n e f attempt call = (.retry, used)) :
    queryLoop t d n e f (fuel + 1) attempt call
      = queryLoop t d n e f fuel (attempt + 1) (call + used) := by
  rw [queryLoop_step, h]

theorem queryAttempt_net (t : Nat → TransportOutcome) (d : Bool)
    (n : Option (String → Except String String)) (e : Bool) (f : String)
    (attempt call : Nat) (h : t call = .netError) :
    queryAttempt t d n e f attempt call
      = if attempt = maxAttempts then
          (.done (.error (.inference netHint)), 1)
        else (.retry, 1) := by
  unfold queryAttempt
  rw [h]

theorem queryAttempt_http (t : Nat → TransportOutcome) (d : Bool)
    (n : Option (String → Except String String)) (e : Bool) (f : String)
    (attempt call status : Nat) (h : t call = .httpError status) :
    queryAttempt t d n e f attempt call
      = if status = 404 ∧ d = true then
          (match t (call + 1) with
            | .success p => (handleSuccess n e f attempt p, 2)
            | _ => (.done (.error .uncaught), 2))
        else if attempt = maxAttempts then
          (.done (.error (.inference (httpHint status))), 1)
        else (.retry, 1) := by
  unfold queryAttempt
  rw [h]

theorem queryAttempt_success (t : Nat → TransportOutcome) (d : Bool)
    (n : Option (String → Except String String)) (e : Bool) (f : String)
    (attempt call : Nat) (p : HttpPayload) (h : t call = .success p) :
    queryAttempt t d n e f attempt call = (handleSuccess n e f attempt p, 1) := by
  unfold queryAttempt
  rw [h]

theorem handleSuccess_empty (n : Option (String → Except String String))
    (e : Bool) (f : String) (attempt : Nat) (p : HttpPayload)
    (h : payloadText p = none) :
    handleSuccess n e f attempt p
      = .done (.error (.inference "Antwort enthält keinen Text.")) := by
  unfold handleSuccess
  rw [h]

theorem queryLoop_connectivity (t : Nat → TransportOutcome) (d : Bool)
    (n : Option (String → Except String String)) (e : Bool) (f : String)
    (h : ∀ i, t i = .netError ∨ ∃ s, t i = .httpError s ∧ s ≠ 404) :
    ∀ fuel attempt call, attempt + fuel = maxAttempts + 1 →
      1 ≤ attempt → attempt ≤ maxAttempts →
      ∃ msg, queryLoop t d n e f fuel attempt call
        = ⟨.error (.inference msg), maxAttempts, call + fuel⟩ := by
  intro fuel
  induction fuel with
  | zero => intro attempt call h1 h2 h3; omega
  | succ fuel ih =>
    intro attempt call h1 h2 h3
    by_cases hatt : attempt = maxAttempts
    · subst hatt
      have hf0 : fuel = 0 := by omega
      subst hf0
      rcases h call with hnet | ⟨status, hs, hs404⟩
      · refine ⟨netHint, ?_⟩
        exact queryLoop_done t d n e f 0 maxAttempts call _ 1
          (by rw [queryAttempt_net t d n e f maxAttempts call hnet, if_pos rfl])
      · refine ⟨httpHint status, ?_⟩
        refine queryLoop_done t d n e f 0 maxAttempts call _ 1 ?_
        rw [queryAttempt_http t d n e f maxAttempts call status hs,
          if_neg (by rintro ⟨h404, -⟩; exact hs404 h404), if_pos rfl]
    · have hq : queryAttempt t d n e f attempt call = (.retry, 1) := by
        rcases h call with hnet | ⟨status, hs, hs404⟩
        · rw [queryAttempt_net t d n e f attempt call hnet, if_neg hatt]
        · rw [queryAttempt_http t d n e f attempt call status hs,
            if_neg (by rintro ⟨h404, -⟩; exact hs404 h404), if_neg hatt]
      rw [queryLoop_retry t d n e f fuel attempt call 1 hq]
      obtain ⟨msg, hm⟩ := ih (attempt + 1) (call + 1) (by omega) (by omega)
        (by omega)
      refine ⟨msg, ?_⟩
      rw [hm]
      have harith : call + 1 + fuel = call + (fuel + 1) := by omega
      rw [harith]

/-- Claim C1: A transport that fails on every attempt with a network error or
a non-404 HTTP error status makes `query` run exactly 10 attempts (and 10
transport calls) and raise `LLMInferenceError`; the configured fallback is
never returned for connectivity failures. -/
theorem query_connectivity_exhaustion (t : Nat → TransportOutcome) (d : Bool)
    (n : Option (String → Except String String)) (e : Bool) (f : String)
    (h : ∀ i, t i = .netError ∨ ∃ s, t i = .httpError s ∧ s ≠ 404) :
    ∃ msg, query t d n e f
      = ⟨.error (.inference msg), maxAttempts, maxAttempts⟩ := by
  obtain ⟨msg, hm⟩ := queryLoop_connectivity t d n e f h maxAttempts 1 0
    (by decide) (by decide) (by decide)
  rw [Nat.zero_add] at hm
  exact ⟨msg, by unfold query; rw [hm]⟩

/-- Witness for `query_connectivity_exhaustion`: a transport that always
returns HTTP 500. -/
theorem query_connectivity_exhaustion_witness :
    (∀ i : Nat, (fun _ : Nat => TransportOutcome.httpError 500) i
          = .netError
        ∨ ∃ s, (fun _ : Nat => TransportOutcome.httpError 500) i
              = .httpError s
            ∧ s ≠ 404)
    ∧ ∃ msg, query (fun _ => .httpError 500) true (some normalizeGenderOutput)
          true "unbekannt 0%"
        = ⟨.error (.inference msg), maxAttempts, maxAttempts⟩ :=
  ⟨fun _ => Or.inr ⟨500, rfl, by decide⟩,
    query_connectivity_exhaustion (fun _ => .httpError 500) true
      (some normalizeGenderOutput) true "unbekannt 0%"
      (fun _ => Or.inr ⟨500, rfl, by decide⟩)⟩

/-- Claim C2, counterexample: A successful HTTP response with an empty
payload is not retried: even though every later response of this transport
holds the valid answer `"weiblich 80%"`, `query` raises
`LLMInferenceError("Antwort enthält keinen Text.")` on the very first
attempt instead of consuming one attempt and retrying. -/
theorem query_empty_payload_counterexample :
    query emptyThenGoodTransport true (some normalizeGenderOutput) true
        "unbekannt 0%"
      = ⟨.error (.inference "Antwort enthält keinen Text."), 1, 1⟩ := rfl

/-- Claim C2, amended: `query` treats an empty payload on a successful HTTP
response as fatal: it raises `LLMInferenceError("Antwort enthält keinen
Text.")` immediately on the first attempt, aborting the query rather than
retrying. -/
theorem query_empty_payload_aborts (t : Nat → TransportOutcome) (d : Bool)
    (n : Option (String → Except String String)) (e : Bool) (f : String)
    (p : HttpPayload) (h0 : t 0 = .success p) (hempty : payloadText p = none) :
    query t d n e f
      = ⟨.error (.inference "Antwort enthält keinen Text."), 1, 1⟩ := by
  unfold query
  refine queryLoop_done t d n e f 9 1 0 _ 1 ?_
  rw [queryAttempt_success t d n e f 1 0 p h0,
    handleSuccess_empty n e f 1 p hempty]

/-- Witness for `query_empty_payload_aborts` at a concrete empty-payload
transport. -/
theorem query_empty_payload_aborts_witness :
    (fun _ : Nat => TransportOutcome.success
        ({ response := some "", output := none } : HttpPayload)) 0
      = .success { response := some "", output := none }
    ∧ payloadText { response := some "", output := none } = none
    ∧ query (fun _ => .success { response := some "", output := none }) false
        (some normalizeGenderOutput) true "unbekannt 0%"
      = ⟨.error (.inference "Antwort enthält keinen Text."), 1, 1⟩ :=
  ⟨rfl, rfl,
    query_empty_payload_aborts
      (fun _ => .success { response := some "", output := none }) false
      (some normalizeGenderOutput) true "unbekannt 0%" _ rfl rfl⟩

theorem handleSuccess_some (nrm : String → Except String String) (e : Bool)
    (f : String) (attempt : Nat) (p : HttpPayload) (o : String)
    (hp : payloadText p = some o) :
    handleSuccess (some nrm) e f attempt p
      = match nrm (pyStripS o) with
        | .error _ => if attempt < maxAttempts then .retry else .done (.ok f)
        | .ok v =>
          if e then
            if (confSearch v.data).getD 0 < 50 ∧ attempt < maxAttempts then
              .retry
            else .done (.ok v)
          else .done (.ok v) := by
  unfold handleSuccess
  rw [hp]

theorem queryLoop_parse_policy (t : Nat → TransportOutcome) (d : Bool)
    (nrm : String → Except String String) (e : Bool) (f : String)
    (p : Nat → HttpPayload) (txt : Nat → String)
    (ht : ∀ i, t i = .success (p i))
    (htx : ∀ i, payloadText (p i) = some (txt i)) :
    ∀ fuel attempt, attempt + fuel = maxAttempts + 1 → 1 ≤ attempt →
      attempt ≤ maxAttempts →
      ((∀ i, attempt - 1 ≤ i → i < maxAttempts →
          (nrm (pyStripS (txt i))).isOk = false) →
        queryLoop t d (some nrm) e f fuel attempt (attempt - 1)
          = ⟨.ok f, maxAttempts, maxAttempts⟩)
      ∧ (∃ v, (queryLoop t d (some nrm) e f fuel attempt (attempt - 1)).result
          = .ok v)
      ∧ (e = false → ∀ k v, attempt - 1 ≤ k → k < maxAttempts →
          (∀ i, attempt - 1 ≤ i → i < k →
            (nrm (pyStripS (txt i))).isOk = false) →
          nrm (pyStripS (txt k)) = .ok v →
          queryLoop t d (some nrm) e f fuel attempt (attempt - 1)
            = ⟨.ok v, k + 1, k + 1⟩) := by
  intro fuel
  induction fuel with
  | zero => intro attempt h1 h2 h3; omega
  | succ fuel ih =>
    intro attempt h1 h2 h3
    have hqa : queryAttempt t d (some nrm) e f attempt (attempt - 1)
        = (handleSuccess (some nrm) e f attempt (p (attempt - 1)), 1) :=
      queryAttempt_success t d (some nrm) e f attempt (attempt - 1) _ (ht _)
    have hhs := handleSuccess_some nrm e f attempt (p (attempt - 1))
      (txt (attempt - 1)) (htx (attempt - 1))
    cases hn : nrm (pyStripS (txt (attempt - 1))) with
    | error err =>
      rw [hn] at hhs
      dsimp only at hhs
      by_cases hlt : attempt < maxAttempts
      · rw [if_pos hlt] at hhs
        have hq : queryAttempt t d (some nrm) e f attempt (attempt - 1)
            = (.retry, 1) := by rw [hqa, hhs]
        have hloop := queryLoop_retry t d (some nrm) e f fuel attempt
          (attempt - 1) 1 hq
        have hcall : attempt - 1 + 1 = attempt + 1 - 1 := by omega
        rw [hcall] at hloop
        obtain ⟨ihf, ihok, ihfirst⟩ := ih (attempt + 1) (by omega) (by omega)
          (by omega)
        refine ⟨?_, ?_, ?_⟩
        · intro hall
          rw [hloop]
          exact ihf fun i hi1 hi2 => hall i (by omega) hi2
        · rw [hloop]
          exact ihok
        · intro he k v hk1 hk2 hpref hok
          rw [hloop]
          have hkne : k ≠ attempt - 1 := by
            intro hkeq
            rw [hkeq, hn] at hok
            exact Except.noConfusion hok
          exact ihfirst he k v (by omega) hk2
            (fun i hi1 hi2 => hpref i (by omega) hi2) hok
      · have hae : attempt = maxAttempts := by omega
        subst hae
        rw [if_neg hlt] at hhs
        have hq : queryAttempt t d (some nrm) e f maxAttempts
            (maxAttempts - 1) = (.done (.ok f), 1) := by rw [hqa, hhs]
        have hloop := queryLoop_done t d (some nrm) e f fuel maxAttempts
          (maxAttempts - 1) (.ok f) 1 hq
        refine ⟨?_, ?_, ?_⟩
        · intro hall
          rw [hloop]
          congr 1
        · exact ⟨f, by rw [hloop]⟩
        · intro he k v hk1 hk2 hpref hok
          have hke : k = maxAttempts - 1 := by omega
          rw [hke, hn] at hok
          exact Except.noConfusion hok
    | ok v0 =>
      rw [hn] at hhs
      dsimp only at hhs
      have hfail : ∀ P : Prop,
          ((∀ i, attempt - 1 ≤ i → i < maxAttempts →
            (nrm (pyStripS (txt i))).isOk = false) → P) := by
        intro P hall
        exact absurd (hall (attempt - 1) (le_refl _) (by omega))
          (by rw [hn]; intro hcon; exact Bool.noConfusion hcon)
      by_cases he : e = true
      · rw [if_pos he] at hhs
        by_cases hconf : (confSearch v0.data).getD 0 < 50 ∧ attempt < maxAttempts
        · rw [if_pos hconf] at hhs
          have hq : queryAttempt t d (some nrm) e f attempt (attempt - 1)
              = (.retry, 1) := by rw [hqa, hhs]
          have hloop := queryLoop_retry t d (some nrm) e f fuel attempt
            (attempt - 1) 1 hq
          have hcall : attempt - 1 + 1 = attempt + 1 - 1 := by omega
          rw [hcall] at hloop
          obtain ⟨ihf, ihok, ihfirst⟩ := ih (attempt + 1) (by omega) (by omega)
            (by omega)
          refine ⟨fun hall => hfail _ hall, ?_, ?_⟩
          · rw [hloop]
            exact ihok
          · intro hef
            rw [hef] at he
            exact absurd he (by simp)
        · rw [if_neg hconf] at hhs
          have hq : queryAttempt t d (some nrm) e f attempt (attempt - 1)
              = (.done (.ok v0), 1) := by rw [hqa, hhs]
          have hloop := queryLoop_done t d (some nrm) e f fuel attempt
            (attempt - 1) (.ok v0) 1 hq
          refine ⟨fun hall => hfail _ hall, ⟨v0, by rw [hloop]⟩, ?_⟩
          intro hef
          rw [hef] at he
          exact absurd he (by simp)
      · rw [if_neg he] at hhs
        have hq : queryAttempt t d (some nrm) e f attempt (attempt - 1)
            = (.done (.ok v0), 1) := by rw [hqa, hhs]
        have hloop := queryLoop_done t d (some nrm) e f fuel attempt
          (attempt - 1) (.ok v0) 1 hq
        refine ⟨fun hall => hfail _ hall, ⟨v0, by rw [hloop]⟩, ?_⟩
        intro hef k v hk1 hk2 hpref hok
        by_cases hkeq : k = attempt - 1
        · rw [hkeq, hn] at hok
          injection hok with hv
          subst hv
          rw [hloop]
          congr 1 <;> omega
        · exact absurd (hpref (attempt - 1) (le_refl _) (by omega))
            (by rw [hn]; intro hcon; exact Bool.noConfusion hcon)

/-- Claim C6: When the normalizer fails on the text of a successful HTTP
response, `query` retries while attempts remain: it never raises for a
parse failure, returns the configured fallback exactly when all ten
attempts parse-fail, and returns the first normalizable answer (consuming
one attempt per failure) otherwise. -/
theorem query_parse_failure_policy (t : Nat → TransportOutcome) (d : Bool)
    (nrm : String → Except String String) (f : String)
    (p : Nat → HttpPayload) (txt : Nat → String)
    (ht : ∀ i, t i = .success (p i))
    (htx : ∀ i, payloadText (p i) = some (txt i)) :
    (∃ v, (query t d (some nrm) false f).result = .ok v)
    ∧ ((∀ i, i < maxAttempts → (nrm (pyStripS (txt i))).isOk = false) →
        query t d (some nrm) false f = ⟨.ok f, maxAttempts, maxAttempts⟩)
    ∧ (∀ k v, k < maxAttempts →
        (∀ i, i < k → (nrm (pyStripS (txt i))).isOk = false) →
        nrm (pyStripS (txt k)) = .ok v →
        query t d (some nrm) false f = ⟨.ok v, k + 1, k + 1⟩) := by
  obtain ⟨h1, h2, h3⟩ := queryLoop_parse_policy t d nrm false f p txt ht htx
    maxAttempts 1 (by decide) (by decide) (by decide)
  exact ⟨h2, fun hall => h1 fun i hi0 hilt => hall i hilt,
    fun k v hk hpref hok =>
      h3 rfl k v (by omega) hk (fun i hi0 hilt => hpref i hilt) hok⟩

/-- Witness for `query_parse_failure_policy`: a transport whose first
response is unparsable (`"quatsch"`) and whose second response is
`"weiblich 80%"` — the normalized answer of attempt 2 is returned after one
retry. -/
theorem query_parse_failure_policy_witness :
    (∀ i : Nat, payloadText (if i = 0 then
          ({ response := some "quatsch", output := none } : HttpPayload)
        else { response := some "weiblich 80%", output := none })
      = some (if i = 0 then "quatsch" else "weiblich 80%"))
    ∧ normalizeGenderOutput (pyStripS "quatsch")
        = .error "Antwort enthält kein erkennbares Geschlecht."
    ∧ query (fun i => .success (if i = 0 then
          ({ response := some "quatsch", output := none } : HttpPayload)
        else { response := some "weiblich 80%", output := none })) true
        (some normalizeGenderOutput) false "unbekannt 0%"
      = ⟨.ok "weiblich 80%", 2, 2⟩ := by
  have htx : ∀ i : Nat, payloadText (if i = 0 then
        ({ response := some "quatsch", output := none } : HttpPayload)
      else { response := some "weiblich 80%", output := none })
      = some (if i = 0 then "quatsch" else "weiblich 80%") := by
    intro i
    by_cases h : i = 0
    · rw [if_pos h, if_pos h]; rfl
    · rw [if_neg h, if_neg h]; rfl
  refine ⟨htx, rfl, ?_⟩
  have := (query_parse_failure_policy
    (fun i => .success (if i = 0 then
        ({ response := some "quatsch", output := none } : HttpPayload)
      else { response := some "weiblich 80%", output := none })) true
    normalizeGenderOutput "unbekannt 0%"
    (fun i => if i = 0 then
        ({ response := some "quatsch", output := none } : HttpPayload)
      else { response := some "weiblich 80%", output := none })
    (fun i => if i = 0 then "quatsch" else "weiblich 80%")
    (fun i => rfl) htx).2.2 1 "weiblich 80%" (by decide)
    (fun i hi => by
      have h0 : i = 0 := by omega
      subst h0
      decide)
    (by rfl)
  exact this

/-! ## Lemmas about the normalizers -/

theorem bool_eq_false_of_ne_true {b : Bool} (h : ¬ b = true) : b = false := by
  cases b
  · rfl
  · exact absurd rfl h

theorem searchAltsFrom_succ (s : List Char) (toks : List (List Char))
    (i fuel : Nat) :
    searchAltsFrom s toks i (fuel + 1)
      = match toks.find? (fun t => tokMatchAt s t i) with
        | some t => some ((s.drop i).take t.length)
        | none => searchAltsFrom s toks (i + 1) fuel := rfl

theorem searchAltsFrom_none_iff (s : List Char) (toks : List (List Char)) :
    ∀ (fuel i : Nat), searchAltsFrom s toks i fuel = none ↔
      ∀ j, i ≤ j → j < i + fuel → ∀ tok ∈ toks, tokMatchAt s tok j = false := by
  intro fuel
  induction fuel with
  | zero =>
    intro i
    constructor
    · intro _ j hj1 hj2 tok htok
      omega
    · intro _
      rfl
  | succ fuel ih =>
    intro i
    constructor
    · intro h j hj1 hj2 tok htok
      cases hf : toks.find? (fun t => tokMatchAt s t i) with
      | some t =>
        rw [searchAltsFrom_succ, hf] at h
        exact Option.noConfusion h
      | none =>
        rw [searchAltsFrom_succ, hf] at h
        by_cases hji : j = i
        · subst hji
          exact bool_eq_false_of_ne_true (List.find?_eq_none.mp hf tok htok)
        · exact (ih (i + 1)).mp h j (by omega) (by omega) tok htok
    · intro h
      cases hf : toks.find? (fun t => tokMatchAt s t i) with
      | some t =>
        have hp : tokMatchAt s t i = true :=
          @List.find?_some (List Char) (fun t => tokMatchAt s t i) t toks hf
        have hfalse := h i (le_refl i) (by omega) t (List.mem_of_find?_eq_some hf)
        rw [hfalse] at hp
        exact Bool.noConfusion hp
      | none =>
        rw [searchAltsFrom_succ, hf]
        exact (ih (i + 1)).mpr fun j hj1 hj2 tok htok =>
          h j (by omega) (by omega) tok htok

theorem hasTokenMatch_false_iff (s tok : List Char) :
    hasTokenMatch s tok = false ↔
      ∀ j, j ≤ s.length → tokMatchAt s tok j = false := by
  unfold hasTokenMatch
  constructor
  · intro h j hj
    cases hm : tokMatchAt s tok j with
    | false => rfl
    | true =>
      exfalso
      have ha : (List.range (s.length + 1)).any
          (fun i => tokMatchAt s tok i) = true :=
        List.any_eq_true.mpr ⟨j, List.mem_range.mpr (by omega), hm⟩
      rw [h] at ha
      exact Bool.noConfusion ha
  · intro h
    cases ha : (List.range (s.length + 1)).any (fun i => tokMatchAt s tok i) with
    | false => rfl
    | true =>
      obtain ⟨j, hj, hm⟩ := List.any_eq_true.mp ha
      rw [h j (Nat.lt_succ_iff.mp (List.mem_range.mp hj))] at hm
      exact Bool.noConfusion hm

theorem searchAlts_none_iff (s : List Char) (toks : List (List Char)) :
    searchAlts s toks = none ↔ ∀ tok ∈ toks, hasTokenMatch s tok = false := by
  unfold searchAlts
  rw [searchAltsFrom_none_iff]
  constructor
  · intro h tok htok
    exact (hasTokenMatch_false_iff s tok).mpr fun j hj =>
      h j (by omega) (by omega) tok htok
  · intro h j hj1 hj2 tok htok
    exact (hasTokenMatch_false_iff s tok).mp (h tok htok) j (by omega)

theorem searchAltsFrom_some (s : List Char) (toks : List (List Char)) :
    ∀ (fuel i : Nat) (m : List Char), searchAltsFrom s toks i fuel = some m →
      ∃ j tok, j < i + fuel ∧ tok ∈ toks ∧ tokMatchAt s tok j = true
        ∧ m = (s.drop j).take tok.length := by
  intro fuel
  induction fuel with
  | zero => intro i m h; exact Option.noConfusion h
  | succ fuel ih =>
    intro i m h
    cases hf : toks.find? (fun t => tokMatchAt s t i) with
    | some t =>
      rw [searchAltsFrom_succ, hf] at h
      injection h with h
      exact ⟨i, t, by omega, List.mem_of_find?_eq_some hf,
        @List.find?_some (List Char) (fun t => tokMatchAt s t i) t toks hf,
        h.symm⟩
    | none =>
      rw [searchAltsFrom_succ, hf] at h
      obtain ⟨j, tok, hjlt, htok, hm, hmeq⟩ := ih (i + 1) m h
      exact ⟨j, tok, by omega, htok, hm, hmeq⟩

theorem tokMatch_lower (s tok : List Char) (i : Nat)
    (h : tokMatchAt s tok i = true) :
    lowerChars ((s.drop i).take tok.length) = lowerChars tok := by
  unfold tokMatchAt at h
  have h1 := (Bool.and_eq_true _ _).mp h
  have h2 := (Bool.and_eq_true _ _).mp h1.1
  have hlit : litMatchAt s tok i = true := h2.2
  unfold litMatchAt at hlit
  have h3 := (Bool.and_eq_true _ _).mp hlit
  exact of_decide_eq_true h3.1

theorem genderTokens_lower : ∀ t ∈ genderTokens, lowerChars t.data = t.data := by
  decide

theorem findFirstDigits_none_iff : ∀ s : List Char,
    findFirstDigits s = none ↔ ∀ c ∈ s, c.isDigit = false := by
  intro s
  induction s with
  | nil => simp [findFirstDigits]
  | cons c rest ih =>
    unfold findFirstDigits
    by_cases hc : c.isDigit = true
    · rw [if_pos hc]
      constructor
      · intro h
        exact Option.noConfusion h
      · intro h
        exact absurd (h c (by simp))
          (by rw [hc]; intro hh; exact Bool.noConfusion hh)
    · have hcf : c.isDigit = false := bool_eq_false_of_ne_true hc
      rw [if_neg hc, ih]
      constructor
      · intro h x hx
        rcases List.mem_cons.mp hx with h1 | h1
        · subst h1; exact hcf
        · exact h x h1
      · intro h x hx
        exact h x (List.mem_cons_of_mem _ hx)

/-- Claim C3: The gender normalizer fails exactly when no canonical gender
token occurs in the cleaned text as a whole word (case-insensitively), and
otherwise returns exactly `"<lowercased token> <clamped percent>%"`, where
the percent is 50 when the cleaned text holds no digit and the clamp of the
first 1–3-digit group into `[0,100]` otherwise. -/
theorem normalizeGender_characterization (raw : String) :
    ((normalizeGenderOutput raw).isOk = false ↔
      ∀ t ∈ genderTokens, hasTokenMatch (cleanText raw.data) t.data = false)
    ∧ ((normalizeGenderOutput raw).isOk = false →
        normalizeGenderOutput raw
          = .error "Antwort enthält kein erkennbares Geschlecht.")
    ∧ (∀ out, normalizeGenderOutput raw = .ok out →
        ∃ t p, t ∈ genderTokens ∧ p ≤ 100
          ∧ out = t ++ " " ++ toString p ++ "%"
          ∧ ((∀ c ∈ cleanText raw.data, c.isDigit = false) → p = 50)
          ∧ (∀ ds, findFirstDigits (cleanText raw.data) = some ds →
              p = min (digitsToNat ds) 100)) := by
  cases hs : searchAlts (cleanText raw.data) (genderTokens.map String.data) with
  | none =>
    have hout : normalizeGenderOutput raw
        = .error "Antwort enthält kein erkennbares Geschlecht." := by
      unfold normalizeGenderOutput
      rw [hs]
    refine ⟨?_, fun _ => hout, ?_⟩
    · constructor
      · intro _ t ht
        exact (searchAlts_none_iff _ _).mp hs t.data
          (List.mem_map_of_mem _ ht)
      · intro _
        rw [hout]
        rfl
    · intro out hcontra
      rw [hout] at hcontra
      exact Except.noConfusion hcontra
  | some m =>
    obtain ⟨j, tokd, hjlt, htokmem, hmatch, hm⟩ :=
      searchAltsFrom_some _ _ _ _ _ hs
    obtain ⟨t, htmem, htd⟩ := List.mem_map.mp htokmem
    have hlow : lowerChars m = t.data := by
      rw [hm, tokMatch_lower _ _ _ hmatch, ← htd]
      exact genderTokens_lower t htmem
    have hmk : String.mk (lowerChars m) = t := by
      rw [hlow]
    have hisok : (normalizeGenderOutput raw).isOk = true := by
      unfold normalizeGenderOutput
      rw [hs]
      rfl
    have hnotok : ¬ ((normalizeGenderOutput raw).isOk = false) := by
      rw [hisok]
      intro hh
      exact Bool.noConfusion hh
    refine ⟨?_, fun hf => absurd hf hnotok, ?_⟩
    · constructor
      · intro hf
        exact absurd hf hnotok
      · intro hall
        exfalso
        have hj : j ≤ (cleanText raw.data).length := by
          simp only [Nat.zero_add] at hjlt
          omega
        have hfalse := (hasTokenMatch_false_iff _ _).mp (hall t htmem) j hj
        rw [htd, hmatch] at hfalse
        exact Bool.noConfusion hfalse
    · intro out hout
      cases hd : findFirstDigits (cleanText raw.data) with
      | none =>
        have hok : normalizeGenderOutput raw
            = .ok (String.mk (lowerChars m) ++ " " ++ toString (50 : Nat)
                ++ "%") := by
          unfold normalizeGenderOutput
          rw [hs, hd]
        rw [hok] at hout
        injection hout with houteq
        refine ⟨t, 50, htmem, by omega, ?_, fun _ => rfl, ?_⟩
        · rw [← houteq, hmk]
        · intro ds hds
          exact Option.noConfusion hds
      | some ds =>
        have hok : normalizeGenderOutput raw
            = .ok (String.mk (lowerChars m) ++ " "
                ++ toString (min (max (digitsToNat ds) 0) 100) ++ "%") := by
          unfold normalizeGenderOutput
          rw [hs, hd]
        rw [hok] at hout
        injection hout with houteq
        refine ⟨t, min (max (digitsToNat ds) 0) 100, htmem,
          Nat.min_le_right _ _, ?_, ?_, ?_⟩
        · rw [← houteq, hmk]
        · intro hnone
          have := (findFirstDigits_none_iff _).mpr hnone
          rw [hd] at this
          exact Option.noConfusion this
        · intro ds2 hds2
          injection hds2 with hds2
          subst hds2
          rw [Nat.max_zero]

/-- Witness for `normalizeGender_characterization` at the raw text
`"Weiblich 80%"`. -/
theorem normalizeGender_characterization_witness :
    normalizeGenderOutput "Weiblich 80%" = .ok "weiblich 80%"
    ∧ ∃ t p, t ∈ genderTokens ∧ p ≤ 100
        ∧ "weiblich 80%" = t ++ " " ++ toString p ++ "%"
        ∧ ((∀ c ∈ cleanText ("Weiblich 80%" : String).data,
              c.isDigit = false) → p = 50)
        ∧ (∀ ds, findFirstDigits (cleanText ("Weiblich 80%" : String).data)
              = some ds → p = min (digitsToNat ds) 100) :=
  ⟨rfl, (normalizeGender_characterization "Weiblich 80%").2.2
    "weiblich 80%" rfl⟩

theorem find?_first {α : Type} (p : α → Bool) :
    ∀ (l : List α) (a : α), l.find? p = some a ↔
      ∃ pre post, l = pre ++ a :: post ∧ p a = true
        ∧ ∀ x ∈ pre, p x = false := by
  intro l
  induction l with
  | nil =>
    intro a
    constructor
    · intro h
      exact Option.noConfusion h
    · rintro ⟨pre, post, heq, -, -⟩
      exact absurd heq (by simp)
  | cons b rest ih =>
    intro a
    by_cases hb : p b = true
    · rw [List.find?_cons_of_pos _ hb]
      constructor
      · intro h
        injection h with h
        subst h
        exact ⟨[], rest, rfl, hb, by simp⟩
      · rintro ⟨pre, post, heq, hpa, hpre⟩
        cases pre with
        | nil =>
          simp only [List.nil_append, List.cons.injEq] at heq
          rw [heq.1]
        | cons q qre =>
          simp only [List.cons_append, List.cons.injEq] at heq
          have hq := hpre q (by simp)
          rw [← heq.1, hb] at hq
          exact Bool.noConfusion hq
    · rw [List.find?_cons_of_neg _ hb, ih]
      have hbf : p b = false := bool_eq_false_of_ne_true hb
      constructor
      · rintro ⟨pre, post, heq, hpa, hpre⟩
        refine ⟨b :: pre, post, by rw [heq]; rfl, hpa, ?_⟩
        intro x hx
        rcases List.mem_cons.mp hx with h1 | h1
        · subst h1; exact hbf
        · exact hpre x h1
      · rintro ⟨pre, post, heq, hpa, hpre⟩
        cases pre with
        | nil =>
          simp only [List.nil_append, List.cons.injEq] at heq
          rw [← heq.1] at hpa
          rw [hpa] at hbf
          exact Bool.noConfusion hbf
        | cons q qre =>
          simp only [List.cons_append, List.cons.injEq] at heq
          exact ⟨qre, post, heq.2, hpa, fun x hx => hpre x (by simp [hx])⟩

/-- Claim C4, counterexample: The synonym table of the audience normalizer is
German: `"For women"` matches no synonym and raises, instead of resolving
to `"female"`; `"bi or everyone"` resolves to the German label `"bi"`, not
to `"both"`; and the five canonical labels are the German ones. -/
theorem audience_english_counterexample :
    normalizeTargetAudienceOutput "For women"
        = .error "Antwort enthält keine erkennbaren Zielgruppe."
    ∧ (normalizeTargetAudienceOutput "For women").isOk = false
    ∧ normalizeTargetAudienceOutput "bi or everyone" = .ok "bi"
    ∧ ("bi" : String) ≠ "both"
    ∧ audienceSynonyms.map Prod.fst
        = ["weiblich", "männlich", "divers", "bi", "unbekannt"] :=
  ⟨rfl, rfl, rfl, by decide, rfl⟩

/-- Claim C4, amended: The audience normalizer matches the cleaned input
against the German synonym table, returning the first canonical label (in
declared table order) one of whose synonyms occurs as a whole word, and
raises when no synonym matches; in particular `"Für Frauen"` resolves to
`"weiblich"` and `"Bi und alle"` resolves to `"bi"`. -/
theorem normalizeAudience_characterization :
    (∀ raw : String,
      ((normalizeTargetAudienceOutput raw).isOk = false ↔
        ∀ entry ∈ audienceSynonyms,
          entryMatches (cleanText raw.data) entry = false)
      ∧ ((normalizeTargetAudienceOutput raw).isOk = false →
          normalizeTargetAudienceOutput raw
            = .error "Antwort enthält keine erkennbaren Zielgruppe.")
      ∧ (∀ lbl, normalizeTargetAudienceOutput raw = .ok lbl ↔
          ∃ pre ks post, audienceSynonyms = pre ++ (lbl, ks) :: post
            ∧ entryMatches (cleanText raw.data) (lbl, ks) = true
            ∧ ∀ entry ∈ pre, entryMatches (cleanText raw.data) entry = false))
    ∧ normalizeTargetAudienceOutput "Für Frauen" = .ok "weiblich"
    ∧ normalizeTargetAudienceOutput "Bi und alle" = .ok "bi" := by
  refine ⟨?_, rfl, rfl⟩
  intro raw
  cases hf : audienceSynonyms.find? (entryMatches (cleanText raw.data)) with
  | none =>
    have hout : normalizeTargetAudienceOutput raw
        = .error "Antwort enthält keine erkennbaren Zielgruppe." := by
      unfold normalizeTargetAudienceOutput
      rw [hf]
    refine ⟨?_, fun _ => hout, ?_⟩
    · constructor
      · intro _ entry hmem
        exact bool_eq_false_of_ne_true (List.find?_eq_none.mp hf entry hmem)
      · intro _
        rw [hout]
        rfl
    · intro lbl
      constructor
      · intro h
        rw [hout] at h
        exact Except.noConfusion h
      · rintro ⟨pre, ks, post, hdec, hmatch, -⟩
        exfalso
        have hmem : (lbl, ks) ∈ audienceSynonyms := by
          rw [hdec]
          exact List.mem_append_right _ (by simp)
        have := List.find?_eq_none.mp hf (lbl, ks) hmem
        rw [hmatch] at this
        exact this rfl
  | some entry =>
    have hout : normalizeTargetAudienceOutput raw = .ok entry.1 := by
      unfold normalizeTargetAudienceOutput
      rw [hf]
    have hdec := (find?_first (entryMatches (cleanText raw.data))
      audienceSynonyms entry).mp hf
    obtain ⟨pre, post, heq, hpa, hpre⟩ := hdec
    have hnotf : ¬ ((normalizeTargetAudienceOutput raw).isOk = false) := by
      rw [hout]
      intro hh
      exact Bool.noConfusion hh
    refine ⟨?_, fun hff => absurd hff hnotf, ?_⟩
    · constructor
      · intro hff
        exact absurd hff hnotf
      · intro hall
        exfalso
        have hmem : entry ∈ audienceSynonyms :=
          List.mem_of_find?_eq_some hf
        have := hall entry hmem
        rw [hpa] at this
        exact Bool.noConfusion this
    · intro lbl
      rw [hout]
      constructor
      · intro h
        injection h with h
        refine ⟨pre, entry.2, post, ?_, ?_, hpre⟩
        · rw [heq, ← h]
        · rw [← h]
          exact hpa
      · rintro ⟨pre2, ks2, post2, hdec2, hmatch2, hpre2⟩
        have := (find?_first (entryMatches (cleanText raw.data))
          audienceSynonyms (lbl, ks2)).mpr ⟨pre2, post2, hdec2, hmatch2, hpre2⟩
        rw [hf] at this
        injection this with this
        rw [this]

/-- Witness for `normalizeAudience_characterization`: `"Für Frauen"`
resolves to `"weiblich"` via the first table entry. -/
theorem normalizeAudience_characterization_witness :
    normalizeTargetAudienceOutput "Für Frauen" = .ok "weiblich"
    ∧ ∃ pre ks post, audienceSynonyms = pre ++ ("weiblich", ks) :: post
        ∧ entryMatches (cleanText ("Für Frauen" : String).data)
            ("weiblich", ks) = true
        ∧ ∀ entry ∈ pre,
            entryMatches (cleanText ("Für Frauen" : String).data) entry
              = false :=
  ⟨rfl, ((normalizeAudience_characterization.1 "Für Frauen").2.2
    "weiblich").mp rfl⟩

end Marktview
